import Mathlib

/-!
# Verification of the PowerPoint generation core (`generate_powerpoint.py`)

This file gives a shallow embedding, in Lean 4, of the rendering pipeline of
`src/generate_powerpoint.py`: the text normalizer `escape_text` and the
presentation builder `generate_pptx`, together with theorems settling the
specification claims about them.

The embedding works on `List Char` / `String` for text, models the
JSON-shaped request data with explicit optional fields, and models the
document-authoring collaborator (python-pptx) as a pure document object
model.  Regex substitutions are translated into left-to-right scanners that
mirror the behaviour of Python's `re.sub` on the concrete patterns of the
source (leftmost match, lazy or greedy repetition as written, `MULTILINE`
anchors, engine advancing one character on a failed match position).
Scanners whose recursion is not structural take an explicit fuel argument;
every top-level entry point passes fuel that is large enough (strictly more
than the input length), so the fuel-exhaustion branch is unreachable.
-/

/-! ## Character classes -/

/-- Python's `\s` character class (and `str.strip` / `str.isspace`),
restricted to the whitespace code points relevant here: the six ASCII
whitespace characters plus the Unicode `White_Space` code points.  (Python
additionally treats `\x1c`-`\x1f` as whitespace for `str.strip`; no input in
this development contains them.) -/
def isPyWs (c : Char) : Bool :=
  c = ' ' || c = '\t' || c = '\n' || c.val = 13 || c.val = 11 || c.val = 12 ||
  c.val = 0x85 || c.val = 0xA0 || c.val = 0x1680 ||
  (0x2000 ≤ c.val && c.val ≤ 0x200A) ||
  c.val = 0x2028 || c.val = 0x2029 || c.val = 0x202F || c.val = 0x205F || c.val = 0x3000

/-- The backtick character (written via its code point). -/
def btk : Char := Char.ofNat 96

/-- The apostrophe character (written via its code point). -/
def apos : Char := Char.ofNat 39

/-- ASCII decimal digit, Python's `\d` on ASCII input. -/
def isPyDigit (c : Char) : Bool := '0' ≤ c && c ≤ '9'

/-! ## The regex substitution steps of `escape_text` (lines 24-70)

Each step is one `re.sub` / `str.replace` call, in source order. -/

/-- Step 1 helper: the lazy `(.*?)` of `re.sub(r'\*\*(.*?)\*\*', r'\1', text)`:
scan for the nearest closing `**` on the same line (`.` does not match a
newline).  Returns the enclosed text and the remainder after the closing
`**`, or `none` when no closing `**` occurs before a newline or the end. -/
def findClose2 : List Char → Option (List Char × List Char)
  | [] => none
  | '\n' :: _ => none
  | '*' :: '*' :: rest => some ([], rest)
  | c :: rest =>
      match findClose2 rest with
      | some (cnt, r) => some (c :: cnt, r)
      | none => none

/-- Step 1 (line 30): `re.sub(r'\*\*(.*?)\*\*', r'\1', text)`.  On a `**`
with a closing `**` on the same line, the enclosed text replaces the whole
match; otherwise the engine advances one character. -/
def subBoldGo : Nat → List Char → List Char
  | 0, l => l
  | _ + 1, [] => []
  | fuel + 1, c :: rest =>
      if c = '*' ∧ rest.head? = some '*' then
        match findClose2 rest.tail with
        | some (cnt, r) => cnt ++ subBoldGo fuel r
        | none => c :: subBoldGo fuel rest
      else c :: subBoldGo fuel rest

def subBold (l : List Char) : List Char := subBoldGo (l.length + 1) l

/-- Step 2 helper: the lazy `(.*?)` of `re.sub(r'\*(.*?)\*', r'\1', text)`:
nearest closing `*` on the same line. -/
def findClose1 : List Char → Option (List Char × List Char)
  | [] => none
  | '\n' :: _ => none
  | '*' :: rest => some ([], rest)
  | c :: rest =>
      match findClose1 rest with
      | some (cnt, r) => some (c :: cnt, r)
      | none => none

/-- Step 2 (line 31): `re.sub(r'\*(.*?)\*', r'\1', text)`. -/
def subItalicGo : Nat → List Char → List Char
  | 0, l => l
  | _ + 1, [] => []
  | fuel + 1, c :: rest =>
      if c = '*' then
        match findClose1 rest with
        | some (cnt, r) => cnt ++ subItalicGo fuel r
        | none => c :: subItalicGo fuel rest
      else c :: subItalicGo fuel rest

def subItalic (l : List Char) : List Char := subItalicGo (l.length + 1) l

/-- Step 3 (line 34): `re.sub(r'\\\\n', r'\n', text)` — two literal
backslashes followed by `n` become a newline (the replacement `r'\n'` is
decoded to a newline by `re.sub`). -/
def subEscNewlineGo : Nat → List Char → List Char
  | 0, l => l
  | _ + 1, [] => []
  | fuel + 1, c :: rest =>
      if c = '\\' ∧ rest.head? = some '\\' ∧ rest.tail.head? = some 'n' then
        '\n' :: subEscNewlineGo fuel rest.tail.tail
      else c :: subEscNewlineGo fuel rest

def subEscNewline (l : List Char) : List Char := subEscNewlineGo (l.length + 1) l

/-- Step 4 (line 35): `re.sub(r'\\\\-', r'-', text)` — two literal
backslashes followed by `-` become `-`. -/
def subEscHyphenGo : Nat → List Char → List Char
  | 0, l => l
  | _ + 1, [] => []
  | fuel + 1, c :: rest =>
      if c = '\\' ∧ rest.head? = some '\\' ∧ rest.tail.head? = some '-' then
        '-' :: subEscHyphenGo fuel rest.tail.tail
      else c :: subEscHyphenGo fuel rest

def subEscHyphen (l : List Char) : List Char := subEscHyphenGo (l.length + 1) l

/-- Step 5 (line 38): `re.sub(r'^\s*#+\s*(.*)$', r'\1', text, flags=re.MULTILINE)`.
The scanner carries a flag telling whether the current position is a line
start (`^` position).  At a line start, the greedy `\s*` may cross newlines;
the match succeeds exactly when the maximal whitespace run is followed by a
`#`.  The `#+` run and the following whitespace run (again possibly crossing
newlines) are consumed and the remainder of the line where that run ends is
kept.  On failure the engine advances one character, re-anchoring after each
newline. -/
def subHeadersGo : Nat → Bool → List Char → List Char
  | 0, _, l => l
  | _ + 1, _, [] => []
  | fuel + 1, false, c :: rest => c :: subHeadersGo fuel (c = '\n') rest
  | fuel + 1, true, c :: rest =>
      let r := (c :: rest).dropWhile isPyWs
      if r.head? = some '#' then
        let r2 := r.dropWhile (fun a => a = '#')
        let r3 := r2.dropWhile isPyWs
        (r3.takeWhile (fun a => a ≠ '\n')) ++
          subHeadersGo fuel false (r3.dropWhile (fun a => a ≠ '\n'))
      else c :: subHeadersGo fuel (c = '\n') rest

def subHeaders (l : List Char) : List Char := subHeadersGo (l.length + 1) true l

/-- Step 6 (line 41): `re.sub(r'$$(.*?)$$$$(.*?)$$', r'\1', text)`.  In this
pattern `$` is the (zero-width) end-of-input assertion, so the pattern can
only match the empty string at the end position(s) of the input, and the
replacement is the (empty) first group: the substitution is the identity.
(The comment in the source says "Remove links", but the pattern as written
contains no bracket or parenthesis syntax and strips nothing.) -/
def subLinks (l : List Char) : List Char := l

/-- Step 7 (line 44): `re.sub(r'^\s*>\s*(.*)$', r'\1', text, flags=re.MULTILINE)`.
Same anchoring discipline as the header step, with a single `>` marker. -/
def subBlockquoteGo : Nat → Bool → List Char → List Char
  | 0, _, l => l
  | _ + 1, _, [] => []
  | fuel + 1, false, c :: rest => c :: subBlockquoteGo fuel (c = '\n') rest
  | fuel + 1, true, c :: rest =>
      let r := (c :: rest).dropWhile isPyWs
      if r.head? = some '>' then
        let r3 := r.tail.dropWhile isPyWs
        (r3.takeWhile (fun a => a ≠ '\n')) ++
          subBlockquoteGo fuel false (r3.dropWhile (fun a => a ≠ '\n'))
      else c :: subBlockquoteGo fuel (c = '\n') rest

def subBlockquote (l : List Char) : List Char := subBlockquoteGo (l.length + 1) true l

/-- Step 8 helper: the lazy `(.*?)` of the fenced-code pattern under
`re.DOTALL`: scan (across newlines) for the nearest closing triple backtick,
returning the remainder after it. -/
def findTriple : Nat → List Char → Option (List Char)
  | 0, _ => none
  | _ + 1, [] => none
  | fuel + 1, c :: rest =>
      if c = btk ∧ rest.head? = some btk ∧ rest.tail.head? = some btk then
        some rest.tail.tail
      else findTriple fuel rest

/-- Step 8 (line 47): removal of fenced code blocks,
`re.sub(r'` followed by three backticks, `(.*?)`, three backticks `', '', text, flags=re.DOTALL)`:
an opening triple backtick with a closing triple backtick later in the input
is removed together with everything between; otherwise the engine advances
one character. -/
def subCodeGo : Nat → List Char → List Char
  | 0, l => l
  | _ + 1, [] => []
  | fuel + 1, c :: rest =>
      if c = btk ∧ rest.head? = some btk ∧ rest.tail.head? = some btk then
        match findTriple (rest.length + 1) rest.tail.tail with
        | some r => subCodeGo fuel r
        | none => c :: subCodeGo fuel rest
      else c :: subCodeGo fuel rest

def subCode (l : List Char) : List Char := subCodeGo (l.length + 1) l

/-- Step 9 (line 50): `re.sub(r'^\s*\d+\.\s+(.*)$', r'- \1', text, flags=re.MULTILINE)`.
At a line start: maximal whitespace run, a nonempty digit run, a literal
dot, at least one whitespace character (the greedy `\s+` may cross
newlines), then the rest of that line, replaced by `- ` and the line rest. -/
def subOrderedGo : Nat → Bool → List Char → List Char
  | 0, _, l => l
  | _ + 1, _, [] => []
  | fuel + 1, false, c :: rest => c :: subOrderedGo fuel (c = '\n') rest
  | fuel + 1, true, c :: rest =>
      let r := (c :: rest).dropWhile isPyWs
      let digs := r.takeWhile isPyDigit
      let r2 := r.dropWhile isPyDigit
      if digs ≠ [] ∧ r2.head? = some '.' ∧ (r2.tail.head?.map isPyWs) = some true then
        let r3 := r2.tail.dropWhile isPyWs
        '-' :: ' ' :: (r3.takeWhile (fun a => a ≠ '\n')) ++
          subOrderedGo fuel false (r3.dropWhile (fun a => a ≠ '\n'))
      else c :: subOrderedGo fuel (c = '\n') rest

def subOrdered (l : List Char) : List Char := subOrderedGo (l.length + 1) true l

/-- Step 10 (line 53): `re.sub(r'^\s*\*\s+', '- ', text, flags=re.MULTILINE)`.
At a line start: maximal whitespace run, a literal `*`, then at least one
whitespace character (greedy, possibly crossing newlines); the match is
replaced by `- `.  The match ends inside the whitespace run, so whether the
continuation position is a line start depends on whether the last consumed
whitespace character was a newline. -/
def subBulletGo : Nat → Bool → List Char → List Char
  | 0, _, l => l
  | _ + 1, _, [] => []
  | fuel + 1, false, c :: rest => c :: subBulletGo fuel (c = '\n') rest
  | fuel + 1, true, c :: rest =>
      let r := (c :: rest).dropWhile isPyWs
      if r.head? = some '*' ∧ (r.tail.head?.map isPyWs) = some true then
        let run := r.tail.takeWhile isPyWs
        let r3 := r.tail.dropWhile isPyWs
        '-' :: ' ' :: subBulletGo fuel (run.getLast? = some '\n') r3
      else c :: subBulletGo fuel (c = '\n') rest

def subBullet (l : List Char) : List Char := subBulletGo (l.length + 1) true l

/-- Step 11 (line 56): `text.replace(r'\t', '\t')` — the two-character
sequence backslash `t` becomes a tab. -/
def replaceEscTabGo : Nat → List Char → List Char
  | 0, l => l
  | _ + 1, [] => []
  | fuel + 1, c :: rest =>
      if c = '\\' ∧ rest.head? = some 't' then '\t' :: replaceEscTabGo fuel rest.tail
      else c :: replaceEscTabGo fuel rest

def replaceEscTab (l : List Char) : List Char := replaceEscTabGo (l.length + 1) l

/-- Hexadecimal digit value. -/
def hexVal (c : Char) : Option Nat :=
  if '0' ≤ c ∧ c ≤ '9' then some (c.toNat - '0'.toNat)
  else if 'a' ≤ c ∧ c ≤ 'f' then some (c.toNat - 'a'.toNat + 10)
  else if 'A' ≤ c ∧ c ≤ 'F' then some (c.toNat - 'A'.toNat + 10)
  else none

/-- Step 12 (line 59): `re.sub(r'\\u([0-9a-fA-F]{4})', lambda m: chr(int(m.group(1), 16)), text)`:
a backslash, `u` and exactly four hex digits become the character with that
code point.  (Python's `chr` also produces lone surrogates, which `Char`
cannot represent; such code points fall back to `U+FFFD` here — no input in
this development contains them.) -/
def unescapeUnicodeGo : Nat → List Char → List Char
  | 0, l => l
  | _ + 1, [] => []
  | fuel + 1, c :: rest =>
      if c = '\\' ∧ rest.head? = some 'u' then
        match rest.tail with
        | a :: b :: d :: e :: rest2 =>
            match hexVal a, hexVal b, hexVal d, hexVal e with
            | some x, some y, some z, some w =>
                let n := ((x * 16 + y) * 16 + z) * 16 + w
                (if n < 0xD800 ∨ (0xE000 ≤ n ∧ n ≤ 0x10FFFF) then Char.ofNat n
                 else Char.ofNat 0xFFFD) :: unescapeUnicodeGo fuel rest2
            | _, _, _, _ => c :: unescapeUnicodeGo fuel rest
        | _ => c :: unescapeUnicodeGo fuel rest
      else c :: unescapeUnicodeGo fuel rest

def unescapeUnicode (l : List Char) : List Char := unescapeUnicodeGo (l.length + 1) l

/-- Step 13 table: the portion of the HTML5 named character reference table
used by `html.unescape` (line 62) that is relevant to this development.
Keys may or may not carry the closing `;`, as in Python's `html5` table.
The full table has ~2000 entries; inputs whose entities lie outside this
subset are outside the scope of the theorems below. -/
def html5Entities : List (String × Char) :=
  [("amp;", '&'), ("amp", '&'), ("lt;", '<'), ("lt", '<'),
   ("gt;", '>'), ("gt", '>'), ("quot;", '"'), ("quot", '"'),
   ("apos;", apos), ("nbsp;", Char.ofNat 0xA0), ("nbsp", Char.ofNat 0xA0),
   ("ast;", '*'), ("num;", '#')]

/-- Characters that terminate the name part of a candidate character
reference: the class `[^\t\n\f <&#;]` of `html._charref`, negated. -/
def isRefStop (c : Char) : Bool :=
  c = '\t' || c = '\n' || c.val = 12 || c = ' ' || c = '<' || c = '&' || c = '#' || c = ';'

/-- Longest key of `html5Entities` that is a prefix of the candidate group,
mirroring `html._replace_charref` (exact lookup, then shrinking prefixes).
Returns the value and the group remainder after the key. -/
def lookupEntity (g : List Char) : Option (Char × List Char) :=
  (html5Entities.filter (fun e => e.1.data.isPrefixOf g)).foldl
    (fun acc e =>
      match acc with
      | none => some (e.2, g.drop e.1.length)
      | some (v, r) =>
          if (g.length - r.length) < e.1.length then some (e.2, g.drop e.1.length)
          else some (v, r))
    none

/-- Numeric character reference decoding of `html.unescape`: surrogate and
out-of-range code points map to `U+FFFD` (the `_invalid_charrefs` special
cases for C1 control characters are not modelled; no input here uses them). -/
def numRefChar (n : Nat) : Char :=
  if n < 0xD800 ∨ (0xE000 ≤ n ∧ n ≤ 0x10FFFF) then Char.ofNat n else Char.ofNat 0xFFFD

/-- Step 13 (line 62): `html.unescape(text)`.  At each `&`, the charref
regex `&(#[0-9]+;?|#[xX][0-9a-fA-F]+;?|[^\t\n\f <&#;]{1,32};?)` is tried;
on a numeric group the code point is decoded, on a named group the longest
known (possibly `;`-less) entity prefix is substituted and the rest of the
group is kept verbatim, and on no match (or unknown name) the text is left
unchanged with scanning resuming after the match (or after the `&`). -/
def htmlUnescapeGo : Nat → List Char → List Char
  | 0, l => l
  | _ + 1, [] => []
  | fuel + 1, c :: rest =>
      if c = '&' then
        if rest.head? = some '#' then
          let t := rest.tail
          if t.head? = some 'x' ∨ t.head? = some 'X' then
            let ds := t.tail.takeWhile (fun a => (hexVal a).isSome)
            let r := t.tail.dropWhile (fun a => (hexVal a).isSome)
            if ds = [] then c :: htmlUnescapeGo fuel rest
            else
              let n := ds.foldl (fun acc a => acc * 16 + ((hexVal a).getD 0)) 0
              let r2 := if r.head? = some ';' then r.tail else r
              numRefChar n :: htmlUnescapeGo fuel r2
          else
            let ds := t.takeWhile isPyDigit
            let r := t.dropWhile isPyDigit
            if ds = [] then c :: htmlUnescapeGo fuel rest
            else
              let n := ds.foldl (fun acc a => acc * 10 + (a.toNat - '0'.toNat)) 0
              let r2 := if r.head? = some ';' then r.tail else r
              numRefChar n :: htmlUnescapeGo fuel r2
        else
          let name := (rest.takeWhile (fun a => ¬ isRefStop a)).take 32
          if name = [] then c :: htmlUnescapeGo fuel rest
          else
            let rest2 := rest.drop name.length
            let g := if rest2.head? = some ';' then name ++ [';'] else name
            let after := rest.drop g.length
            match lookupEntity g with
            | some (v, grest) => (v :: grest) ++ htmlUnescapeGo fuel after
            | none => c :: (g ++ htmlUnescapeGo fuel after)
      else c :: htmlUnescapeGo fuel rest

def htmlUnescape (l : List Char) : List Char := htmlUnescapeGo (l.length + 1) l

/-- Step 14 (line 65): `re.sub(r'(?<!\n)\s+', ' ', text)`.  Every maximal
whitespace run is matched starting at its first character, whose predecessor
is never a newline (it is a non-whitespace character or the input start), so
the negative lookbehind never rejects a match and the greedy `\s+` consumes
the entire run, newlines included: every whitespace run collapses to one
space.  The scanner carries "previous character was inside a whitespace
run". -/
def collapseGo (prevWs : Bool) : List Char → List Char
  | [] => []
  | c :: rest =>
      if isPyWs c then
        if prevWs then collapseGo true rest else ' ' :: collapseGo true rest
      else c :: collapseGo false rest

def collapseWs (l : List Char) : List Char := collapseGo false l

/-- Trailing-whitespace removal (the right half of `str.strip`, line 68). -/
def dropTrailWs : List Char → List Char
  | [] => []
  | c :: rest =>
      match dropTrailWs rest with
      | [] => if isPyWs c then [] else [c]
      | r => c :: r

/-- Step 15 (line 68): `text.strip()` — leading and trailing whitespace
removed. -/
def pyStrip (l : List Char) : List Char := dropTrailWs (l.dropWhile isPyWs)

/-- The full substitution pipeline of `escape_text`, in source order
(lines 30-68). -/
def normalizePipeline (l : List Char) : List Char :=
  pyStrip (collapseWs (htmlUnescape (unescapeUnicode (replaceEscTab
    (subBullet (subOrdered (subCode (subBlockquote (subLinks
      (subHeaders (subEscHyphen (subEscNewline (subItalic (subBold l))))))))))))))

/-- The text normalizer `escape_text` (lines 24-70): falsy (empty) input
yields the empty string, otherwise the fifteen substitution steps are
applied in order. -/
def escape_text (s : String) : String :=
  if s = "" then "" else String.mk (normalizePipeline s.data)

/-! ## Request data model (the parsed JSON input of `generate_pptx`)

The request body is parsed JSON (`json.loads`, line 83).  The fields read by
the builder are modelled as typed optional fields; an `Option` field is
`none` exactly when the corresponding key is absent from the JSON object.
JSON scalars appearing as table cell values are modelled by `JVal` (JSON
numbers are modelled as integers; the claims do not involve fractional
values). -/

/-- A JSON scalar value, as produced by `json.loads`. -/
inductive JVal where
  | str (s : String)
  | num (n : Int)
  | bool (b : Bool)
  | null
deriving DecidableEq

/-- Python's `str()` applied to a parsed JSON scalar (used for table cells,
line 206: `cell.text = str(cell_data)`). -/
def pyStr : JVal → String
  | .str s => s
  | .num n => toString n
  | .bool true => "True"
  | .bool false => "False"
  | .null => "None"

/-- A positioning dictionary (`table_position` / `chart_position`), fields
in inches. -/
structure BoxSpec where
  left : Option Int
  top : Option Int
  width : Option Int
  height : Option Int
deriving DecidableEq

/-- One entry of the `images` list (lines 167-183). -/
structure ImageData where
  url : String
  left : Option Int
  top : Option Int
  width : Option Int
  height : Option Int
deriving DecidableEq

/-- One entry of `chart_data['series']` (lines 216-220). -/
structure SeriesData where
  name : Option String
  values : List Int
deriving DecidableEq

/-- The `chart_data` dictionary of a slide (lines 209-241). -/
structure ChartData where
  type : Option String
  categories : List String
  series : List SeriesData
  title : Option String
  title_font_size : Option Int
  has_legend : Option Bool
  chart_position : Option BoxSpec
deriving DecidableEq

/-- One content slide specification (lines 126-244). -/
structure SlideData where
  title : Option String
  title_font_size : Option Int
  body : Option String
  body_font_size : Option Int
  images : Option (List ImageData)
  table_data : Option (List (List JVal))
  table_position : Option BoxSpec
  chart_data : Option ChartData
deriving DecidableEq

/-- The `title_slide` dictionary (lines 101-123). -/
structure TitleSlideData where
  title : Option String
  title_font_size : Option Int
  subtitle : Option String
  subtitle_font_size : Option Int
deriving DecidableEq

/-- The dictionary form of the `slides` value.  Only the two keys the code
reads (`content_slides`, `title_slide`) influence behaviour; any other keys
of the dictionary (for instance the slide fields of a legacy bare
slide object, which has neither of these keys) are irrelevant to the
membership tests and lookups of lines 94-126 and are not recorded. -/
structure SlidesDict where
  content_slides : Option (List SlideData)
  title_slide : Option TitleSlideData
deriving DecidableEq

/-- The `slides` value of the request: either a JSON object or a JSON
array (a legacy bare list of slide objects). -/
inductive SlidesVal where
  | dict (d : SlidesDict)
  | arr (xs : List SlideData)
deriving DecidableEq

/-- The parsed request body.  `slides = none` models a JSON object without
the `slides` key (line 88). -/
structure RequestData where
  slides : Option SlidesVal
deriving DecidableEq

/-- Python's `'content_slides' in slides_data` (line 94): key membership
when `slides` is a dictionary; when `slides` is a list, membership tests the
string against the list elements, and a slide object never equals a string,
so the test is false. -/
def hasContentSlidesKey : SlidesVal → Bool
  | .dict d => d.content_slides.isSome
  | .arr _ => false

/-! ## Document object model (the python-pptx collaborator)

The authoring collaborator is modelled as a pure document tree: slides own
an ordered placeholder list and an ordered shape list.  Placeholder lists
come from the layouts of the python-pptx default template. -/

/-- A text placeholder region on a slide. -/
structure Placeholder where
  has_text_frame : Bool
  text : String
  font_size : Option Int
deriving DecidableEq

/-- A picture shape (position and size in inches). -/
structure PicShape where
  left : Int
  top : Int
  width : Int
  height : Int
deriving DecidableEq

/-- A table shape. -/
structure TableShape where
  rows : Nat
  cols : Nat
  cells : List (List String)
  left : Int
  top : Int
  width : Int
  height : Int
deriving DecidableEq

/-- A chart shape. -/
structure ChartShape where
  chart_type : String
  categories : List String
  series : List (String × List Int)
  has_legend : Bool
  title : Option String
  title_font_size : Option Int
  left : Int
  top : Int
  width : Int
  height : Int
deriving DecidableEq

/-- Any shape added to a slide by the builder. -/
inductive Shape where
  | pic (p : PicShape)
  | table (t : TableShape)
  | chart (c : ChartShape)
deriving DecidableEq

/-- One slide of the produced document: the layout index it was
instantiated from (`prs.slide_layouts[i]`), its placeholder regions in
layout order, and its non-placeholder shapes in insertion order. -/
structure Slide where
  layout : Nat
  placeholders : List Placeholder
  shapes : List Shape
deriving DecidableEq

/-- Model of the document-authoring collaborator: the placeholder lists of
the python-pptx default template layouts used by the code.  Layout 0 (Title
Slide) has a centered title (idx 0) and a subtitle (idx 1); layout 1 (Title
and Content) has a title (idx 0) and a body (idx 1); layout 5 (Title Only)
has only a title.  All carry empty text frames when the slide is
instantiated. -/
def layoutPlaceholders : Nat → List Placeholder
  | 0 => [⟨true, "", none⟩, ⟨true, "", none⟩]
  | 1 => [⟨true, "", none⟩, ⟨true, "", none⟩]
  | 5 => [⟨true, "", none⟩]
  | _ => []

/-- Setting the text and font size of the placeholder at a position
(mirrors `shape.text = t` followed by the paragraph font-size assignment). -/
def setPh (phs : List Placeholder) (i : Nat) (t : String) (fs : Int) : List Placeholder :=
  phs.set i { has_text_frame := true, text := t, font_size := some fs }

/-- Model of the charting collaborator: the member names of python-pptx's
`XL_CHART_TYPE` enumeration, against which `getattr(XL_CHART_TYPE, ...)`
(line 230) resolves; an absent name raises `AttributeError`. -/
def xlChartTypeNames : List String :=
  ["THREE_D_AREA", "THREE_D_AREA_STACKED", "THREE_D_AREA_STACKED_100",
   "THREE_D_BAR_CLUSTERED", "THREE_D_BAR_STACKED", "THREE_D_BAR_STACKED_100",
   "THREE_D_COLUMN", "THREE_D_COLUMN_CLUSTERED", "THREE_D_COLUMN_STACKED",
   "THREE_D_COLUMN_STACKED_100", "THREE_D_LINE", "THREE_D_PIE",
   "THREE_D_PIE_EXPLODED", "AREA", "AREA_STACKED", "AREA_STACKED_100",
   "BAR_CLUSTERED", "BAR_OF_PIE", "BAR_STACKED", "BAR_STACKED_100", "BUBBLE",
   "BUBBLE_THREE_D_EFFECT", "COLUMN_CLUSTERED", "COLUMN_STACKED",
   "COLUMN_STACKED_100", "CONE_BAR_CLUSTERED", "CONE_BAR_STACKED",
   "CONE_BAR_STACKED_100", "CONE_COL", "CONE_COL_CLUSTERED",
   "CONE_COL_STACKED", "CONE_COL_STACKED_100", "CYLINDER_BAR_CLUSTERED",
   "CYLINDER_BAR_STACKED", "CYLINDER_BAR_STACKED_100", "CYLINDER_COL",
   "CYLINDER_COL_CLUSTERED", "CYLINDER_COL_STACKED",
   "CYLINDER_COL_STACKED_100", "DOUGHNUT", "DOUGHNUT_EXPLODED", "LINE",
   "LINE_MARKERS", "LINE_MARKERS_STACKED", "LINE_MARKERS_STACKED_100",
   "LINE_STACKED", "LINE_STACKED_100", "PIE", "PIE_EXPLODED", "PIE_OF_PIE",
   "PYRAMID_BAR_CLUSTERED", "PYRAMID_BAR_STACKED", "PYRAMID_BAR_STACKED_100",
   "PYRAMID_COL", "PYRAMID_COL_CLUSTERED", "PYRAMID_COL_STACKED",
   "PYRAMID_COL_STACKED_100", "RADAR", "RADAR_FILLED", "RADAR_MARKERS",
   "STOCK_HLC", "STOCK_OHLC", "STOCK_VHLC", "STOCK_VOHLC", "SURFACE",
   "SURFACE_TOP_VIEW", "SURFACE_TOP_VIEW_WIREFRAME", "SURFACE_WIREFRAME",
   "XY_SCATTER", "XY_SCATTER_LINES", "XY_SCATTER_LINES_NO_MARKERS",
   "XY_SCATTER_SMOOTH", "XY_SCATTER_SMOOTH_NO_MARKERS"]

/-- The image-fetch collaborator: retrieving the bytes at a URL either
succeeds or fails (network error or non-success status,
`raise_for_status`).  The byte content itself does not influence the
document model, so success carries no payload. -/
def Fetcher : Type := String → Except String Unit

/-! ## The builder `generate_pptx` (lines 75-267) -/

/-- Outcome of one request: a successfully built and serialized document
(HTTP 200), a request-validation failure before any document is built
(HTTP 400, lines 85-95), or an exception escaping to the outer handler
(HTTP 500, lines 266-267).  The error outcomes carry no document. -/
inductive RenderResult where
  | ok (doc : List Slide)
  | clientError (msg : String)
  | serverError (msg : String)
deriving DecidableEq

def RenderResult.isOk : RenderResult → Bool
  | .ok _ => true
  | _ => false

def RenderResult.isClientError : RenderResult → Bool
  | .clientError _ => true
  | _ => false

def RenderResult.isServerError : RenderResult → Bool
  | .serverError _ => true
  | _ => false

/-- Layout selection for a content slide (lines 128-133): `chart_data`
present → layout 5; else `table_data` present → layout 5; else layout 1. -/
def selectLayout (sd : SlideData) : Nat :=
  if sd.chart_data.isSome then 5
  else if sd.table_data.isSome then 5
  else 1

/-- The title slide (lines 101-123): instantiated under layout 0; the title
placeholder receives the normalized title (default `"Presentation Title"`)
at the requested size (default 54 pt); if a `subtitle` key is present,
placeholder 1 receives the normalized subtitle at the requested size
(default 32 pt). -/
def buildTitleSlide (ts : TitleSlideData) : Slide :=
  let phs := layoutPlaceholders 0
  let phs := setPh phs 0 (escape_text (ts.title.getD "Presentation Title"))
    (ts.title_font_size.getD 54)
  let phs :=
    match ts.subtitle with
    | some sub => setPh phs 1 (escape_text sub) (ts.subtitle_font_size.getD 32)
    | none => phs
  { layout := 0, placeholders := phs, shapes := [] }

/-- The condition of the body-placeholder scan (line 150):
`shape.has_text_frame and shape.text_frame.text == ""`. -/
def isEmptyTextPh (ph : Placeholder) : Bool :=
  ph.has_text_frame && ph.text == ""

/-- The body-placeholder scan (lines 148-152): the index of the first
placeholder that has a text frame and currently holds no text. -/
def findEmptyIdx : List Placeholder → Option Nat
  | [] => none
  | ph :: rest =>
      if isEmptyTextPh ph then some 0
      else (findEmptyIdx rest).map (· + 1)

/-- The placeholders of a content slide after the title assignment
(lines 139-143): placeholder 0 receives the normalized title (default
`"Untitled Slide"`) at the requested size (default 36 pt). -/
def titledPlaceholders (sd : SlideData) : List Placeholder :=
  setPh (layoutPlaceholders (selectLayout sd)) 0
    (escape_text (sd.title.getD "Untitled Slide")) (sd.title_font_size.getD 36)

/-- The placeholders of a content slide after body binding (lines 146-164):
when a `body` key is present, the first empty text placeholder (if any)
receives the normalized body text at the requested size (default 24 pt);
when no such placeholder exists the body text is dropped. -/
def boundPlaceholders (sd : SlideData) : List Placeholder :=
  match sd.body with
  | none => titledPlaceholders sd
  | some b =>
      match findEmptyIdx (titledPlaceholders sd) with
      | some i => setPh (titledPlaceholders sd) i (escape_text b) (sd.body_font_size.getD 24)
      | none => titledPlaceholders sd

/-- Image insertion (lines 167-183): each entry is fetched independently;
the whole attempt is wrapped in `try/except`, so a failure skips that one
image (with a printed diagnostic) and the loop continues.  A successful
fetch adds a picture at the given or default `{1, 1, 3, 2}` box. -/
def imageShapes (fetch : Fetcher) (imgs : List ImageData) : List Shape :=
  imgs.filterMap (fun im =>
    match fetch im.url with
    | .ok _ => some (Shape.pic ⟨im.left.getD 1, im.top.getD 1, im.width.getD 3, im.height.getD 2⟩)
    | .error _ => none)

/-- Number of columns of the table (line 189):
`len(table_data[0]) if table_data else 0`. -/
def headCols : List (List JVal) → Nat
  | [] => 0
  | row :: _ => row.length

/-- An all-empty `rows × cols` cell grid, as created by
`shapes.add_table(rows, cols, ...)` (line 199). -/
def blankGrid (rows cols : Nat) : List (List String) :=
  List.replicate rows (List.replicate cols "")

/-- The inner population loop for one table row (lines 204-206): cell
`(r, c)` is assigned `str(cell_data)`; `table.cell` raises `IndexError`
when the column index is out of range (a later row longer than row 0). -/
def fillRowCells (cols : Nat) : List String → Nat → List JVal → Except String (List String)
  | rowCells, _, [] => .ok rowCells
  | rowCells, c, v :: vs =>
      if c < cols then fillRowCells cols (rowCells.set c (pyStr v)) (c + 1) vs
      else .error "IndexError: list index out of range"

/-- The outer population loop (lines 203-206), row by row. -/
def fillRows (cols : Nat) : List (List String) → Nat → List (List JVal) → Except String (List (List String))
  | g, _, [] => .ok g
  | g, r, row :: rest =>
      match fillRowCells cols (g.getD r []) 0 row with
      | .error e => .error e
      | .ok newRow => fillRows cols (g.set r newRow) (r + 1) rest

/-- Table insertion (lines 186-206): `rows = len(table_data)`,
`cols = len(table_data[0]) if table_data else 0` (an empty `table_data`
still creates an empty 0-column table), position from `table_position` with
defaults `{left:1, top:3, width:8, height:2}`, then the population loop.
This section is NOT wrapped in `try/except`: an `IndexError` raised while
populating propagates out of the slide loop. -/
def buildTable (pos? : Option BoxSpec) (td : List (List JVal)) : Except String TableShape :=
  let pos := pos?.getD ⟨none, none, none, none⟩
  match fillRows (headCols td) (blankGrid td.length (headCols td)) 0 td with
  | .error e => .error e
  | .ok g =>
      .ok { rows := td.length, cols := headCols td, cells := g,
            left := pos.left.getD 1, top := pos.top.getD 3,
            width := pos.width.getD 8, height := pos.height.getD 2 }

/-- The table part of a slide: `none` when no `table_data` key, otherwise
the built table or the escaping `IndexError`. -/
def tablePart (sd : SlideData) : Except String (Option TableShape) :=
  match sd.table_data with
  | none => .ok none
  | some td =>
      match buildTable sd.table_position td with
      | .error e => .error e
      | .ok t => .ok (some t)

/-- Chart insertion (lines 209-244), wrapped in `try/except`: the chart
data object is assembled from `categories` and `series` (names default to
`''`), the position defaults to `{left:1, top:3, width:6, height:4}`, and
the chart kind string (default `"COLUMN_CLUSTERED"`) is resolved against
`XL_CHART_TYPE`; an unknown name raises `AttributeError` before any shape
is added, so the whole chart is skipped.  Legend visibility defaults to
shown; a truthy (non-empty) `title` sets the chart title verbatim (line
239 applies no normalization) at the requested size (default 18 pt). -/
def buildChart (cd : ChartData) : Except String ChartShape :=
  let ty := cd.type.getD "COLUMN_CLUSTERED"
  let pos := cd.chart_position.getD ⟨none, none, none, none⟩
  if ty ∈ xlChartTypeNames then
    .ok { chart_type := ty, categories := cd.categories,
          series := cd.series.map (fun s => (s.name.getD "", s.values)),
          has_legend := cd.has_legend.getD true,
          title := match cd.title with
            | some t => if t = "" then none else some t
            | none => none,
          title_font_size := match cd.title with
            | some t => if t = "" then none else some (cd.title_font_size.getD 18)
            | none => none,
          left := pos.left.getD 1, top := pos.top.getD 3,
          width := pos.width.getD 6, height := pos.height.getD 4 }
  else .error ("AttributeError: COLUMN_CLUSTERED has no attribute " ++ ty)

/-- The chart shapes of a slide: the caught failure case contributes
nothing (the diagnostic is printed and processing continues). -/
def chartShapes (sd : SlideData) : List Shape :=
  match sd.chart_data with
  | none => []
  | some cd =>
      match buildChart cd with
      | .ok c => [Shape.chart c]
      | .error _ => []

/-- One content slide (lines 126-244): layout selection, title, body
binding, then images, table and chart in source order.  Only the table
section can raise an exception that escapes the slide construction. -/
def buildContentSlide (fetch : Fetcher) (sd : SlideData) : Except String Slide :=
  match tablePart sd with
  | .error e => .error e
  | .ok t? =>
      .ok { layout := selectLayout sd,
            placeholders := boundPlaceholders sd,
            shapes := (match sd.images with
                        | some imgs => imageShapes fetch imgs
                        | none => []) ++
                      (match t? with
                        | some t => [Shape.table t]
                        | none => []) ++
                      chartShapes sd }

/-- The content-slide loop (line 126): slides are built strictly in input
order; the first escaping exception aborts the loop. -/
def buildSlides (fetch : Fetcher) : List SlideData → Except String (List Slide)
  | [] => .ok []
  | sd :: rest =>
      match buildContentSlide fetch sd with
      | .error e => .error e
      | .ok s =>
          match buildSlides fetch rest with
          | .error e => .error e
          | .ok ss => .ok (s :: ss)

/-- The title-slide part of the document (lines 101-123): present exactly
when the `title_slide` key is present, and always first. -/
def titleSlidePart (d : SlidesDict) : List Slide :=
  match d.title_slide with
  | some ts => [buildTitleSlide ts]
  | none => []

/-- The request handler core `generate_pptx` (lines 75-267), starting from
the parsed request body: validation of the `slides` and `content_slides`
keys (lines 88-95, client errors), document construction, and the outer
`except` that turns any escaping exception into a server error
(lines 266-267).  A successful run serializes the document and returns it
(the byte serialization and download-link bookkeeping of lines 246-264 are
the out-of-scope collaborators). -/
def generate_pptx (fetch : Fetcher) (data : RequestData) : RenderResult :=
  match data.slides with
  | none => .clientError "Invalid input. Must provide slides."
  | some slides_data =>
      if hasContentSlidesKey slides_data then
        match slides_data with
        | .arr _ => .clientError "Invalid input. Must provide content_slides."
        | .dict d =>
            match d.content_slides with
            | none => .clientError "Invalid input. Must provide content_slides."
            | some cs =>
                match buildSlides fetch cs with
                | .error e => .serverError e
                | .ok slides => .ok (titleSlidePart d ++ slides)
      else .clientError "Invalid input. Must provide content_slides."

/-! ## Decidable well-formedness observations -/

/-- Row `r`, column `c` of a table shape's cell grid, when present. -/
def cellText (t : TableShape) (r c : Nat) : Option String :=
  (t.cells.get? r).bind (fun row => row.get? c)

/-- A table population run succeeds exactly when no row is longer than row
0 (`cols`); this predicate captures the success condition. -/
def rowsFitB (td : List (List JVal)) : Bool :=
  td.all (fun row => row.length ≤ headCols td)

/-- Per-slide success condition for the whole slide construction: the only
escaping exception is the table `IndexError`. -/
def slideTableOk (sd : SlideData) : Bool :=
  match sd.table_data with
  | some td => rowsFitB td
  | none => true

/-- Whether a slide carries a chart shape. -/
def hasChartShape (s : Slide) : Bool :=
  s.shapes.any (fun sh => match sh with | .chart _ => true | _ => false)

/-- Whether the request carries the `slides` key holding a dictionary with
the `content_slides` key — the condition under which the two validation
checks of lines 88-95 both pass. -/
def contentSlidesPresent (r : RequestData) : Bool :=
  match r.slides with
  | some sv => hasContentSlidesKey sv
  | none => false

/-! ## Concrete collaborators and requests used as witness inputs -/

/-- An image-fetch collaborator for which every retrieval succeeds. -/
def fetchAlwaysOk : Fetcher := fun _ => .ok ()

/-- An image-fetch collaborator for which every retrieval fails. -/
def fetchAlwaysFail : Fetcher := fun _ => .error "connection refused"

/-- A minimal content slide. -/
def sampleSlide : SlideData := ⟨some "Hello", none, none, none, none, none, none, none⟩

/-- A slide whose table data is ragged: the second row is longer than the
first, so populating cell (1, 1) raises `IndexError`. -/
def raggedSlide : SlideData :=
  ⟨some "T", none, none, none, none, some [[.str "a"], [.str "b", .str "c"]], none, none⟩

/-- A slide with one (failing) image and a chart of unknown kind. -/
def imgChartSlide : SlideData :=
  ⟨some "Mixed", none, none, none,
   some [⟨"https://example.com/pic.png", none, none, none, none⟩], none, none,
   some ⟨some "NOT_A_REAL_TYPE", ["a", "b"], [⟨some "s1", [1, 2]⟩], some "Chart", none, none, none⟩⟩

/-- The table slide of the specification example:
`tableData: [["a","b"],["c","d"]]` and no position. -/
def specTableSlide : SlideData :=
  ⟨some "Tbl", none, none, none, none,
   some [[.str "a", .str "b"], [.str "c", .str "d"]], none, none⟩

/-- A slide with a title and body text. -/
def bodySlide : SlideData := ⟨some "T", none, some "hello body", none, none, none, none, none⟩

/-- A slide with a known-kind chart whose title carries raw markup, and a
table whose cells carry raw markup and mixed scalar types. -/
def rawTextSlide : SlideData :=
  ⟨some "# Raw", none, none, none, none,
   some [[.str "**bold**", .num 7], [.bool true, .null]], none,
   some ⟨none, ["q1"], [⟨some "s", [3]⟩], some "Revenue *2024*", none, none, none⟩⟩

/-! ## Builder lemmas -/

theorem fillRowCells_ok_spec (cols : Nat) (vs : List JVal) :
    ∀ (c : Nat) (rc : List String), c + vs.length ≤ cols → rc.length = cols →
    ∃ out, fillRowCells cols rc c vs = .ok out ∧ out.length = cols ∧
      (∀ j v, vs.get? j = some v → out.get? (c + j) = some (pyStr v)) ∧
      (∀ j, (j < c ∨ c + vs.length ≤ j) → out.get? j = rc.get? j) := by
  induction vs with
  | nil =>
      intro c rc _ hlen
      exact ⟨rc, rfl, hlen, by intro j v h; simp at h, by intro j _; rfl⟩
  | cons v vs ih =>
      intro c rc hle hlen
      have hc : c < cols := by simp at hle; omega
      have hrecLe : (c + 1) + vs.length ≤ cols := by simp at hle ⊢; omega
      have hlen' : (rc.set c (pyStr v)).length = cols := by simp [hlen]
      obtain ⟨out, hout, houtLen, hvals, hkeep⟩ := ih (c + 1) (rc.set c (pyStr v)) hrecLe hlen'
      refine ⟨out, ?_, houtLen, ?_, ?_⟩
      · simp [fillRowCells, hc, hout]
      · intro j w hj
        match j, hj with
        | 0, hj =>
            simp at hj
            subst hj
            have h1 : out.get? (c + 0) = (rc.set c (pyStr v)).get? c := by
              simpa using hkeep c (Or.inl (by omega))
            rw [h1]
            have : c < rc.length := by omega
            simp [List.get?_eq_getElem?, List.getElem?_set_eq_of_lt (pyStr v) this]
        | j + 1, hj =>
            have := hvals j w (by simpa using hj)
            have harith : c + (j + 1) = (c + 1) + j := by omega
            rw [harith]
            exact this
      · intro j hj
        have h1 : out.get? j = (rc.set c (pyStr v)).get? j := by
          apply hkeep
          simp at hj ⊢
          omega
        have hne : c ≠ j := by simp at hj; omega
        rw [h1, List.get?_eq_getElem?, List.get?_eq_getElem?, List.getElem?_set_ne hne]

theorem fillRowCells_ok_exists (cols : Nat) (vs : List JVal) :
    ∀ (c : Nat) (rc : List String), c + vs.length ≤ cols →
    ∃ out, fillRowCells cols rc c vs = .ok out := by
  induction vs with
  | nil => intro c rc _; exact ⟨rc, rfl⟩
  | cons v vs ih =>
      intro c rc hle
      have hc : c < cols := by simp at hle; omega
      obtain ⟨out, hout⟩ := ih (c + 1) (rc.set c (pyStr v)) (by simp at hle ⊢; omega)
      exact ⟨out, by simp [fillRowCells, hc, hout]⟩

theorem fillRowCells_err (cols : Nat) (vs : List JVal) :
    ∀ (c : Nat) (rc : List String), c ≤ cols → cols < c + vs.length →
    ∃ e, fillRowCells cols rc c vs = .error e := by
  induction vs with
  | nil => intro c rc hle hlt; simp at hlt; omega
  | cons v vs ih =>
      intro c rc hle hlt
      by_cases hc : c < cols
      · obtain ⟨e, he⟩ := ih (c + 1) (rc.set c (pyStr v)) (by omega) (by simp at hlt ⊢; omega)
        exact ⟨e, by simp [fillRowCells, hc, he]⟩
      · refine ⟨"IndexError: list index out of range", ?_⟩
        simp [fillRowCells, hc]

theorem fillRows_ok_spec (cols : Nat) (td : List (List JVal)) :
    ∀ (r : Nat) (g : List (List String)),
    (∀ row ∈ td, row.length ≤ cols) →
    (∀ j, r ≤ j → j < r + td.length → ∃ rowg, g.get? j = some rowg ∧ rowg.length = cols) →
    ∃ out, fillRows cols g r td = .ok out ∧
      (∀ j, j < r → out.get? j = g.get? j) ∧
      (∀ k row, td.get? k = some row →
        ∃ outRow, out.get? (r + k) = some outRow ∧
          ∀ c v, row.get? c = some v → outRow.get? c = some (pyStr v)) := by
  induction td with
  | nil =>
      intro r g _ _
      exact ⟨g, rfl, by intro j _; rfl, by intro k row h; simp at h⟩
  | cons row rest ih =>
      intro r g hrows hg
      obtain ⟨rowg, hrowg, hrowgLen⟩ := hg r (le_refl r) (by simp)
      have hrowgE : g[r]? = some rowg := by
        rw [← List.get?_eq_getElem?]; exact hrowg
      have hgetD : g.getD r [] = rowg := by
        rw [List.getD_eq_getElem?_getD, hrowgE]; rfl
      have hrfit : 0 + row.length ≤ cols := by
        simpa using hrows row (by simp)
      obtain ⟨newRow, hnew, hnewLen, hnewVals, _⟩ :=
        fillRowCells_ok_spec cols row 0 rowg hrfit hrowgLen
      have hrlt : r < g.length := (List.get?_eq_some.mp hrowg).1
      obtain ⟨out, hout, hkeep, hmain⟩ := ih (r + 1) (g.set r newRow)
        (by intro w hw; exact hrows w (by simp [hw]))
        (by
          intro j hj1 hj2
          have hne : r ≠ j := by omega
          rw [List.get?_eq_getElem?, List.getElem?_set_ne hne, ← List.get?_eq_getElem?]
          exact hg j (by omega) (by simp at hj2 ⊢; omega))
      refine ⟨out, ?_, ?_, ?_⟩
      · simp [fillRows, hrowgE, hnew, hout]
      · intro j hj
        have h1 := hkeep j (by omega)
        have hne : r ≠ j := by omega
        rw [h1, List.get?_eq_getElem?, List.getElem?_set_ne hne, ← List.get?_eq_getElem?]
      · intro k krow hk
        match k, hk with
        | 0, hk =>
            simp at hk
            subst hk
            refine ⟨newRow, ?_, ?_⟩
            · have h1 := hkeep r (by omega)
              simp only [Nat.add_zero]
              rw [h1, List.get?_eq_getElem?, List.getElem?_set_eq_of_lt newRow hrlt]
            · intro c v hv
              simpa using hnewVals c v hv
        | k + 1, hk =>
            have := hmain k krow (by simpa using hk)
            have harith : r + (k + 1) = (r + 1) + k := by omega
            rw [harith]
            exact this

theorem fillRows_err (cols : Nat) (td : List (List JVal)) :
    ∀ (r : Nat) (g : List (List String)),
    (∃ row ∈ td, cols < row.length) →
    ∃ e, fillRows cols g r td = .error e := by
  induction td with
  | nil => intro r g h; simp at h
  | cons row rest ih =>
      intro r g h
      by_cases hrow : cols < row.length
      · obtain ⟨e, he⟩ := fillRowCells_err cols row 0 (g.getD r []) (Nat.zero_le cols) (by omega)
        rw [List.getD_eq_getElem?_getD] at he
        exact ⟨e, by simp [fillRows, he]⟩
      · obtain ⟨row', hmem, hlt⟩ := h
        have hmem' : row' ∈ rest := by
          rcases List.mem_cons.mp hmem with h1 | h1
          · subst h1; omega
          · exact h1
        rcases hfill : fillRowCells cols (g[r]?.getD []) 0 row with e | newRow
        · exact ⟨e, by simp [fillRows, hfill]⟩
        · obtain ⟨e, he⟩ := ih (r + 1) (g.set r newRow) ⟨row', hmem', hlt⟩
          exact ⟨e, by simp [fillRows, hfill, he]⟩

theorem buildTable_ok (pos? : Option BoxSpec) (td : List (List JVal))
    (h : rowsFitB td = true) :
    ∃ t, buildTable pos? td = .ok t ∧ t.rows = td.length ∧ t.cols = headCols td ∧
      t.left = (pos?.getD ⟨none, none, none, none⟩).left.getD 1 ∧
      t.top = (pos?.getD ⟨none, none, none, none⟩).top.getD 3 ∧
      t.width = (pos?.getD ⟨none, none, none, none⟩).width.getD 8 ∧
      t.height = (pos?.getD ⟨none, none, none, none⟩).height.getD 2 ∧
      (∀ r row c v, td.get? r = some row → row.get? c = some v →
        cellText t r c = some (pyStr v)) := by
  have hrows : ∀ row ∈ td, row.length ≤ headCols td := by
    intro row hrow
    have := List.all_eq_true.mp h row hrow
    simpa using this
  obtain ⟨out, hout, _, hmain⟩ := fillRows_ok_spec (headCols td) td 0 (blankGrid td.length (headCols td))
    hrows
    (by
      intro j hj1 hj2
      refine ⟨List.replicate (headCols td) "", ?_, by simp⟩
      rw [List.get?_eq_getElem?]
      simp only [blankGrid]
      rw [List.getElem?_replicate]
      simp at hj2
      simp [hj2])
  refine ⟨{ rows := td.length, cols := headCols td, cells := out,
            left := (pos?.getD ⟨none, none, none, none⟩).left.getD 1,
            top := (pos?.getD ⟨none, none, none, none⟩).top.getD 3,
            width := (pos?.getD ⟨none, none, none, none⟩).width.getD 8,
            height := (pos?.getD ⟨none, none, none, none⟩).height.getD 2 },
          ?_, rfl, rfl, rfl, rfl, rfl, rfl, ?_⟩
  · simp [buildTable, hout]
  · intro r row c v hr hv
    obtain ⟨outRow, hor, hcell⟩ := hmain r row hr
    rw [Nat.zero_add] at hor
    show (out.get? r).bind (fun row => row.get? c) = some (pyStr v)
    rw [hor]
    simpa using hcell c v hv

theorem buildTable_err (pos? : Option BoxSpec) (td : List (List JVal))
    (h : rowsFitB td = false) :
    ∃ e, buildTable pos? td = .error e := by
  have hbad : ∃ row ∈ td, headCols td < row.length := by
    have := List.all_eq_false.mp h
    obtain ⟨row, hrow, hfalse⟩ := this
    exact ⟨row, hrow, by simpa using hfalse⟩
  obtain ⟨e, he⟩ := fillRows_err (headCols td) td 0 (blankGrid td.length (headCols td)) hbad
  exact ⟨e, by simp [buildTable, he]⟩

theorem tablePart_ok_of (sd : SlideData) (h : slideTableOk sd = true) :
    ∃ t?, tablePart sd = .ok t? := by
  rcases htd : sd.table_data with _ | td
  · exact ⟨none, by simp [tablePart, htd]⟩
  · have hfit : rowsFitB td = true := by
      have := h
      rw [slideTableOk, htd] at this
      exact this
    obtain ⟨t, ht, _⟩ := buildTable_ok sd.table_position td hfit
    exact ⟨some t, by simp [tablePart, htd, ht]⟩

theorem tablePart_err_of (sd : SlideData) (h : slideTableOk sd = false) :
    ∃ e, tablePart sd = .error e := by
  rcases htd : sd.table_data with _ | td
  · rw [slideTableOk, htd] at h; simp at h
  · have hfit : rowsFitB td = false := by
      have := h
      rw [slideTableOk, htd] at this
      exact this
    obtain ⟨e, he⟩ := buildTable_err sd.table_position td hfit
    exact ⟨e, by simp [tablePart, htd, he]⟩

theorem buildContentSlide_of_tablePart_none (f : Fetcher) (sd : SlideData)
    (h : tablePart sd = .ok none) :
    buildContentSlide f sd =
      .ok { layout := selectLayout sd,
            placeholders := boundPlaceholders sd,
            shapes := (match sd.images with
                        | some imgs => imageShapes f imgs
                        | none => []) ++
                      [] ++
                      chartShapes sd } := by
  simp [buildContentSlide, h]

theorem buildContentSlide_of_tablePart_some (f : Fetcher) (sd : SlideData)
    (t : TableShape) (h : tablePart sd = .ok (some t)) :
    buildContentSlide f sd =
      .ok { layout := selectLayout sd,
            placeholders := boundPlaceholders sd,
            shapes := (match sd.images with
                        | some imgs => imageShapes f imgs
                        | none => []) ++
                      [Shape.table t] ++
                      chartShapes sd } := by
  simp [buildContentSlide, h]

theorem buildContentSlide_ok_of (f : Fetcher) (sd : SlideData)
    (h : slideTableOk sd = true) :
    ∃ s, buildContentSlide f sd = .ok s ∧ s.layout = selectLayout sd ∧
      s.placeholders = boundPlaceholders sd := by
  obtain ⟨t?, ht⟩ := tablePart_ok_of sd h
  rcases t? with _ | t
  · exact ⟨_, buildContentSlide_of_tablePart_none f sd ht, rfl, rfl⟩
  · exact ⟨_, buildContentSlide_of_tablePart_some f sd t ht, rfl, rfl⟩

theorem buildContentSlide_err_of (f : Fetcher) (sd : SlideData)
    (h : slideTableOk sd = false) :
    ∃ e, buildContentSlide f sd = .error e := by
  obtain ⟨e, he⟩ := tablePart_err_of sd h
  exact ⟨e, by simp [buildContentSlide, he]⟩

theorem buildSlides_ok_spec (f : Fetcher) (cs : List SlideData)
    (h : ∀ sd ∈ cs, slideTableOk sd = true) :
    ∃ out, buildSlides f cs = .ok out ∧ out.length = cs.length ∧
      ∀ j sd, cs.get? j = some sd →
        ∃ s, buildContentSlide f sd = .ok s ∧ out.get? j = some s := by
  induction cs with
  | nil => exact ⟨[], rfl, rfl, by intro j sd h'; simp at h'⟩
  | cons sd rest ih =>
      obtain ⟨s, hs, _, _⟩ := buildContentSlide_ok_of f sd (h sd (by simp))
      obtain ⟨out, hout, hlen, hmain⟩ := ih (by intro x hx; exact h x (by simp [hx]))
      refine ⟨s :: out, by simp [buildSlides, hs, hout], by simp [hlen], ?_⟩
      intro j sd' hj
      match j, hj with
      | 0, hj => simp at hj; subst hj; exact ⟨s, hs, rfl⟩
      | j + 1, hj => simpa using hmain j sd' (by simpa using hj)

theorem buildSlides_err_spec (f : Fetcher) (cs : List SlideData)
    (h : ∃ sd ∈ cs, slideTableOk sd = false) :
    ∃ e, buildSlides f cs = .error e := by
  induction cs with
  | nil => simp at h
  | cons sd rest ih =>
      by_cases hsd : slideTableOk sd = true
      · obtain ⟨s, hs, _, _⟩ := buildContentSlide_ok_of f sd hsd
        obtain ⟨bad, hmem, hbad⟩ := h
        have hmem' : bad ∈ rest := by
          rcases List.mem_cons.mp hmem with h1 | h1
          · subst h1; rw [hsd] at hbad; simp at hbad
          · exact h1
        obtain ⟨e, he⟩ := ih ⟨bad, hmem', hbad⟩
        exact ⟨e, by simp [buildSlides, hs, he]⟩
      · obtain ⟨e, he⟩ := buildContentSlide_err_of f sd (by simpa using hsd)
        exact ⟨e, by simp [buildSlides, he]⟩

theorem findEmptyIdx_some_spec (phs : List Placeholder) (i : Nat)
    (h : findEmptyIdx phs = some i) :
    ∃ ph, phs.get? i = some ph ∧ isEmptyTextPh ph = true ∧
      ∀ j ph', j < i → phs.get? j = some ph' → isEmptyTextPh ph' = false := by
  induction phs generalizing i with
  | nil => simp [findEmptyIdx] at h
  | cons ph rest ih =>
      by_cases hph : isEmptyTextPh ph
      · rw [findEmptyIdx, if_pos hph] at h
        have : i = 0 := by simpa using h.symm
        subst this
        exact ⟨ph, rfl, hph, by intro j ph' hj; omega⟩
      · rw [findEmptyIdx, if_neg hph] at h
        rcases hrec : findEmptyIdx rest with _ | i'
        · rw [hrec] at h; simp at h
        · rw [hrec] at h
          simp at h
          subst h
          obtain ⟨ph', hph', hempty, hfirst⟩ := ih i' hrec
          refine ⟨ph', by simpa using hph', hempty, ?_⟩
          intro j q hj hq
          match j, hq with
          | 0, hq =>
              simp at hq
              subst hq
              simpa using hph
          | j + 1, hq => exact hfirst j q (by omega) (by simpa using hq)

theorem findEmptyIdx_none_spec (phs : List Placeholder)
    (h : findEmptyIdx phs = none) :
    ∀ ph ∈ phs, isEmptyTextPh ph = false := by
  induction phs with
  | nil => intro ph h'; simp at h'
  | cons q rest ih =>
      intro ph hph
      by_cases hq : isEmptyTextPh q
      · rw [findEmptyIdx, if_pos hq] at h; simp at h
      · rw [findEmptyIdx, if_neg hq] at h
        rcases List.mem_cons.mp hph with h1 | h1
        · subst h1; simpa using hq
        · rcases hrec : findEmptyIdx rest with _ | i'
          · exact ih hrec ph h1
          · rw [hrec] at h; simp at h

/-! ## Normalizer lemmas

The claims about `escape_text` need two kinds of facts: each substitution
step is the identity on inputs lacking its trigger character, and the final
collapse/strip pair is idempotent. -/

/-- Characters that can activate any of the fifteen substitution steps:
`*` (emphasis, bullets), `\` (escapes), `#` (headers), `>` (blockquotes),
`&` (entities), backtick (code fences) and decimal digits (ordered
lists). -/
def isTrigChar (c : Char) : Bool :=
  c = '*' || c = '\\' || c = '#' || c = '>' || c = '&' || c = btk || isPyDigit c

theorem not_mem_of_noTrig {l : List Char} (h : ∀ c ∈ l, isTrigChar c = false)
    {x : Char} (hx : isTrigChar x = true) : x ∉ l := by
  intro hmem
  rw [h x hmem] at hx
  exact Bool.false_ne_true hx

theorem subBoldGo_id (fuel : Nat) (l : List Char) (h : '*' ∉ l) :
    subBoldGo fuel l = l := by
  induction fuel generalizing l with
  | zero => rfl
  | succ fuel ih =>
      match l with
      | [] => rfl
      | c :: rest =>
          have hc : ¬ (c = '*') := fun he => h (by simp [he])
          have hrest : '*' ∉ rest := fun he => h (by simp [he])
          simp only [subBoldGo, hc, false_and, if_false]
          rw [ih rest hrest]

theorem subItalicGo_id (fuel : Nat) (l : List Char) (h : '*' ∉ l) :
    subItalicGo fuel l = l := by
  induction fuel generalizing l with
  | zero => rfl
  | succ fuel ih =>
      match l with
      | [] => rfl
      | c :: rest =>
          have hc : ¬ (c = '*') := fun he => h (by simp [he])
          have hrest : '*' ∉ rest := fun he => h (by simp [he])
          simp only [subItalicGo, hc, if_false]
          rw [ih rest hrest]

theorem subEscNewlineGo_id (fuel : Nat) (l : List Char) (h : '\\' ∉ l) :
    subEscNewlineGo fuel l = l := by
  induction fuel generalizing l with
  | zero => rfl
  | succ fuel ih =>
      match l with
      | [] => rfl
      | c :: rest =>
          have hc : ¬ (c = '\\') := fun he => h (by simp [he])
          have hrest : '\\' ∉ rest := fun he => h (by simp [he])
          simp only [subEscNewlineGo, hc, false_and, if_false]
          rw [ih rest hrest]

theorem subEscHyphenGo_id (fuel : Nat) (l : List Char) (h : '\\' ∉ l) :
    subEscHyphenGo fuel l = l := by
  induction fuel generalizing l with
  | zero => rfl
  | succ fuel ih =>
      match l with
      | [] => rfl
      | c :: rest =>
          have hc : ¬ (c = '\\') := fun he => h (by simp [he])
          have hrest : '\\' ∉ rest := fun he => h (by simp [he])
          simp only [subEscHyphenGo, hc, false_and, if_false]
          rw [ih rest hrest]

theorem replaceEscTabGo_id (fuel : Nat) (l : List Char) (h : '\\' ∉ l) :
    replaceEscTabGo fuel l = l := by
  induction fuel generalizing l with
  | zero => rfl
  | succ fuel ih =>
      match l with
      | [] => rfl
      | c :: rest =>
          have hc : ¬ (c = '\\') := fun he => h (by simp [he])
          have hrest : '\\' ∉ rest := fun he => h (by simp [he])
          simp only [replaceEscTabGo, hc, false_and, if_false]
          rw [ih rest hrest]

theorem unescapeUnicodeGo_id (fuel : Nat) (l : List Char) (h : '\\' ∉ l) :
    unescapeUnicodeGo fuel l = l := by
  induction fuel generalizing l with
  | zero => rfl
  | succ fuel ih =>
      match l with
      | [] => rfl
      | c :: rest =>
          have hc : ¬ (c = '\\') := fun he => h (by simp [he])
          have hrest : '\\' ∉ rest := fun he => h (by simp [he])
          simp only [unescapeUnicodeGo, hc, false_and, if_false]
          rw [ih rest hrest]

theorem htmlUnescapeGo_id (fuel : Nat) (l : List Char) (h : '&' ∉ l) :
    htmlUnescapeGo fuel l = l := by
  induction fuel generalizing l with
  | zero => rfl
  | succ fuel ih =>
      match l with
      | [] => rfl
      | c :: rest =>
          have hc : ¬ (c = '&') := fun he => h (by simp [he])
          have hrest : '&' ∉ rest := fun he => h (by simp [he])
          simp only [htmlUnescapeGo, hc, if_false]
          rw [ih rest hrest]

theorem subCodeGo_id (fuel : Nat) (l : List Char) (h : btk ∉ l) :
    subCodeGo fuel l = l := by
  induction fuel generalizing l with
  | zero => rfl
  | succ fuel ih =>
      match l with
      | [] => rfl
      | c :: rest =>
          have hc : ¬ (c = btk) := fun he => h (by simp [he])
          have hrest : btk ∉ rest := fun he => h (by simp [he])
          simp only [subCodeGo, hc, false_and, if_false]
          rw [ih rest hrest]

theorem head?_dropWhile_mem {l : List Char} {p : Char → Bool} {x : Char}
    (h : (l.dropWhile p).head? = some x) : x ∈ l := by
  have hx : x ∈ l.dropWhile p := by
    rcases hd : l.dropWhile p with _ | ⟨y, ys⟩
    · rw [hd] at h; simp at h
    · rw [hd] at h; simp at h; simp [hd, h]
  exact (List.dropWhile_suffix p).sublist.mem hx

theorem subHeadersGo_id (fuel : Nat) (b : Bool) (l : List Char) (h : '#' ∉ l) :
    subHeadersGo fuel b l = l := by
  induction fuel generalizing b l with
  | zero => rfl
  | succ fuel ih =>
      match b, l with
      | true, [] => rfl
      | false, [] => rfl
      | false, c :: rest =>
          have hrest : '#' ∉ rest := fun he => h (by simp [he])
          simp only [subHeadersGo]
          rw [ih _ rest hrest]
      | true, c :: rest =>
          have hrest : '#' ∉ rest := fun he => h (by simp [he])
          have hno : ¬ (((c :: rest).dropWhile isPyWs).head? = some '#') := by
            intro hhd
            exact h (head?_dropWhile_mem hhd)
          simp only [subHeadersGo, hno, if_false]
          rw [ih _ rest hrest]

theorem subBlockquoteGo_id (fuel : Nat) (b : Bool) (l : List Char) (h : '>' ∉ l) :
    subBlockquoteGo fuel b l = l := by
  induction fuel generalizing b l with
  | zero => rfl
  | succ fuel ih =>
      match b, l with
      | true, [] => rfl
      | false, [] => rfl
      | false, c :: rest =>
          have hrest : '>' ∉ rest := fun he => h (by simp [he])
          simp only [subBlockquoteGo]
          rw [ih _ rest hrest]
      | true, c :: rest =>
          have hrest : '>' ∉ rest := fun he => h (by simp [he])
          have hno : ¬ (((c :: rest).dropWhile isPyWs).head? = some '>') := by
            intro hhd
            exact h (head?_dropWhile_mem hhd)
          simp only [subBlockquoteGo, hno, if_false]
          rw [ih _ rest hrest]

theorem subOrderedGo_id (fuel : Nat) (b : Bool) (l : List Char)
    (h : ∀ c ∈ l, isPyDigit c = false) : subOrderedGo fuel b l = l := by
  induction fuel generalizing b l with
  | zero => rfl
  | succ fuel ih =>
      match b, l with
      | true, [] => rfl
      | false, [] => rfl
      | false, c :: rest =>
          have hrest : ∀ x ∈ rest, isPyDigit x = false := fun x hx => h x (by simp [hx])
          simp only [subOrderedGo]
          rw [ih _ rest hrest]
      | true, c :: rest =>
          have hrest : ∀ x ∈ rest, isPyDigit x = false := fun x hx => h x (by simp [hx])
          have hdigs : ((c :: rest).dropWhile isPyWs).takeWhile isPyDigit = [] := by
            rcases hd : (c :: rest).dropWhile isPyWs with _ | ⟨y, ys⟩
            · rfl
            · have hy : y ∈ c :: rest := head?_dropWhile_mem (by rw [hd]; rfl)
              simp [List.takeWhile_cons, h y hy]
          simp only [subOrderedGo, hdigs, ne_eq, not_true_eq_false, false_and, if_false]
          rw [ih _ rest hrest]

theorem subBulletGo_id (fuel : Nat) (b : Bool) (l : List Char) (h : '*' ∉ l) :
    subBulletGo fuel b l = l := by
  induction fuel generalizing b l with
  | zero => rfl
  | succ fuel ih =>
      match b, l with
      | true, [] => rfl
      | false, [] => rfl
      | false, c :: rest =>
          have hrest : '*' ∉ rest := fun he => h (by simp [he])
          simp only [subBulletGo]
          rw [ih _ rest hrest]
      | true, c :: rest =>
          have hrest : '*' ∉ rest := fun he => h (by simp [he])
          have hno : ¬ (((c :: rest).dropWhile isPyWs).head? = some '*') := by
            intro hhd
            exact h (head?_dropWhile_mem hhd)
          simp only [subBulletGo, hno, false_and, if_false]
          rw [ih _ rest hrest]

/-! ## Collapse / strip theory -/

/-- No two adjacent whitespace characters. -/
def noAdjWs : List Char → Bool
  | a :: b :: rest => (!(isPyWs a && isPyWs b)) && noAdjWs (b :: rest)
  | _ => true

theorem noAdjWs_tail {a : Char} {l : List Char} (h : noAdjWs (a :: l) = true) :
    noAdjWs l = true := by
  match l with
  | [] => rfl
  | b :: rest => exact (Bool.and_eq_true_iff.mp h).2

theorem noAdjWs_pair {a b : Char} {l : List Char} (h : noAdjWs (a :: b :: l) = true) :
    ¬ (isPyWs a = true ∧ isPyWs b = true) := by
  intro ⟨h1, h2⟩
  have := (Bool.and_eq_true_iff.mp h).1
  rw [h1, h2] at this
  simp at this

theorem noAdjWs_cons_of {a : Char} {l : List Char} (h : noAdjWs l = true)
    (hhd : ∀ b, l.head? = some b → ¬ (isPyWs a = true ∧ isPyWs b = true)) :
    noAdjWs (a :: l) = true := by
  match l with
  | [] => rfl
  | b :: rest =>
      rw [noAdjWs, Bool.and_eq_true_iff]
      refine ⟨?_, h⟩
      have := hhd b rfl
      rcases hwa : isPyWs a <;> rcases hwb : isPyWs b <;> simp_all

theorem collapseGo_head_true (l : List Char) :
    ∀ c, (collapseGo true l).head? = some c → isPyWs c = false := by
  induction l with
  | nil => intro c h; simp [collapseGo] at h
  | cons a rest ih =>
      intro c h
      by_cases hw : isPyWs a
      · rw [collapseGo, if_pos hw, if_pos rfl] at h
        exact ih c h
      · rw [collapseGo, if_neg hw] at h
        simp at h
        subst h
        simpa using hw

theorem collapseGo_mem (b : Bool) (l : List Char) (c : Char)
    (h : c ∈ collapseGo b l) : c ∈ l ∨ c = ' ' := by
  induction l generalizing b with
  | nil => simp [collapseGo] at h
  | cons a rest ih =>
      by_cases hw : isPyWs a
      · rw [collapseGo, if_pos hw] at h
        by_cases hb : b
        · subst hb
          rw [if_pos rfl] at h
          rcases ih true h with h1 | h1
          · exact Or.inl (by simp [h1])
          · exact Or.inr h1
        · rw [Bool.not_eq_true] at hb
          subst hb
          simp only [Bool.false_eq_true, if_false] at h
          rcases List.mem_cons.mp h with h1 | h1
          · exact Or.inr h1
          · rcases ih true h1 with h2 | h2
            · exact Or.inl (by simp [h2])
            · exact Or.inr h2
      · rw [collapseGo, if_neg hw] at h
        rcases List.mem_cons.mp h with h1 | h1
        · exact Or.inl (by simp [h1])
        · rcases ih false h1 with h2 | h2
          · exact Or.inl (by simp [h2])
          · exact Or.inr h2

theorem collapseGo_wsOnly (b : Bool) (l : List Char) (c : Char)
    (h : c ∈ collapseGo b l) (hw : isPyWs c = true) : c = ' ' := by
  induction l generalizing b with
  | nil => simp [collapseGo] at h
  | cons a rest ih =>
      by_cases hwa : isPyWs a
      · rw [collapseGo, if_pos hwa] at h
        by_cases hb : b
        · subst hb; rw [if_pos rfl] at h; exact ih true h
        · rw [Bool.not_eq_true] at hb
          subst hb
          simp only [Bool.false_eq_true, if_false] at h
          rcases List.mem_cons.mp h with h1 | h1
          · exact h1
          · exact ih true h1
      · rw [collapseGo, if_neg hwa] at h
        rcases List.mem_cons.mp h with h1 | h1
        · subst h1; rw [hw] at hwa; simp at hwa
        · exact ih false h1

theorem collapseGo_noAdj (b : Bool) (l : List Char) : noAdjWs (collapseGo b l) = true := by
  induction l generalizing b with
  | nil => rfl
  | cons a rest ih =>
      by_cases hwa : isPyWs a
      · rw [collapseGo, if_pos hwa]
        by_cases hb : b
        · subst hb; rw [if_pos rfl]; exact ih true
        · rw [Bool.not_eq_true] at hb
          subst hb
          simp only [Bool.false_eq_true, if_false]
          refine noAdjWs_cons_of (ih true) ?_
          intro x hx ⟨_, hwx⟩
          rw [collapseGo_head_true rest x hx] at hwx
          simp at hwx
      · rw [collapseGo, if_neg hwa]
        refine noAdjWs_cons_of (ih false) ?_
        intro x hx ⟨hwa', _⟩
        rw [hwa'] at hwa
        simp at hwa

theorem collapseGo_fix (l : List Char)
    (hws : ∀ c ∈ l, isPyWs c = true → c = ' ')
    (hadj : noAdjWs l = true) :
    collapseGo false l = l ∧
      ((∀ x, l.head? = some x → isPyWs x = false) → collapseGo true l = l) := by
  induction l with
  | nil => exact ⟨rfl, fun _ => rfl⟩
  | cons a rest ih =>
      have hwsr : ∀ c ∈ rest, isPyWs c = true → c = ' ' :=
        fun c hc => hws c (by simp [hc])
      obtain ⟨ihf, iht⟩ := ih hwsr (noAdjWs_tail hadj)
      by_cases hwa : isPyWs a
      · have ha : a = ' ' := hws a (by simp) hwa
        have hrestHead : ∀ x, rest.head? = some x → isPyWs x = false := by
          intro x hx
          match rest, hadj, hx with
          | b :: rest', hadj, hx =>
              have hxb : b = x := by simpa using hx
              subst hxb
              have hpair := noAdjWs_pair hadj
              by_cases hwx : isPyWs b = true
              · exact absurd ⟨hwa, hwx⟩ hpair
              · simpa using hwx
        constructor
        · rw [collapseGo, if_pos hwa]
          simp only [Bool.false_eq_true, if_false]
          rw [iht hrestHead, ha]
        · intro hhd
          have := hhd a rfl
          rw [hwa] at this
          simp at this
      · constructor
        · rw [collapseGo, if_neg hwa, ihf]
        · intro _
          rw [collapseGo, if_neg hwa, ihf]

theorem dropTrailWs_mem {l : List Char} {c : Char} (h : c ∈ dropTrailWs l) : c ∈ l := by
  induction l with
  | nil => simp [dropTrailWs] at h
  | cons a rest ih =>
      rw [dropTrailWs] at h
      rcases hd : dropTrailWs rest with _ | ⟨x, xs⟩
      · rw [hd] at h
        by_cases hwa : isPyWs a
        · rw [if_pos hwa] at h; simp at h
        · rw [if_neg hwa] at h
          simp at h
          simp [h]
      · rw [hd] at h
        rcases List.mem_cons.mp h with h1 | h1
        · simp [h1]
        · have : c ∈ dropTrailWs rest := by rw [hd]; exact h1
          simp [ih this]

theorem dropTrailWs_head? {l : List Char} (h : dropTrailWs l ≠ []) :
    (dropTrailWs l).head? = l.head? := by
  match l with
  | [] => simp [dropTrailWs] at h
  | a :: rest =>
      rw [dropTrailWs]
      rcases hd : dropTrailWs rest with _ | ⟨x, xs⟩
      · by_cases hwa : isPyWs a
        · rw [dropTrailWs, hd, if_pos hwa] at h
          simp at h
        · rw [if_neg hwa]; rfl
      · rfl

theorem dropTrailWs_noAdj {l : List Char} (h : noAdjWs l = true) :
    noAdjWs (dropTrailWs l) = true := by
  induction l with
  | nil => rfl
  | cons a rest ih =>
      rw [dropTrailWs]
      rcases hd : dropTrailWs rest with _ | ⟨x, xs⟩
      · by_cases hwa : isPyWs a
        · rw [if_pos hwa]; rfl
        · rw [if_neg hwa]; rfl
      · have hna : noAdjWs (x :: xs) = true := by
          rw [← hd]; exact ih (noAdjWs_tail h)
        refine noAdjWs_cons_of hna ?_
        intro b hb
        simp at hb
        subst hb
        have hx : (dropTrailWs rest).head? = rest.head? := dropTrailWs_head? (by rw [hd]; simp)
        rw [hd] at hx
        simp at hx
        match rest, h, hx with
        | b :: rest', h, hx =>
            have hbx : x = b := by simpa using hx
            subst hbx
            exact noAdjWs_pair h

theorem dropWhile_noAdj {l : List Char} (h : noAdjWs l = true) :
    noAdjWs (l.dropWhile isPyWs) = true := by
  induction l with
  | nil => rfl
  | cons a rest ih =>
      by_cases hwa : isPyWs a
      · rw [List.dropWhile_cons_of_pos hwa]
        exact ih (noAdjWs_tail h)
      · rw [List.dropWhile_cons_of_neg (by simpa using hwa)]
        exact h

theorem dropTrailWs_getLast {l : List Char} {c : Char}
    (h : (dropTrailWs l).getLast? = some c) : isPyWs c = false := by
  induction l with
  | nil => simp [dropTrailWs] at h
  | cons a rest ih =>
      rw [dropTrailWs] at h
      rcases hd : dropTrailWs rest with _ | ⟨x, xs⟩
      · rw [hd] at h
        by_cases hwa : isPyWs a
        · rw [if_pos hwa] at h; simp at h
        · rw [if_neg hwa] at h
          simp at h
          subst h
          simpa using hwa
      · rw [hd] at h
        rw [List.getLast?_cons_cons] at h
        apply ih
        rw [hd]
        exact h

theorem dropTrailWs_fix {l : List Char}
    (h : ∀ x, l.getLast? = some x → isPyWs x = false) : dropTrailWs l = l := by
  induction l with
  | nil => rfl
  | cons a rest ih =>
      match rest with
      | [] =>
          have := h a (by simp)
          rw [dropTrailWs, dropTrailWs]
          rw [if_neg (by simp [this])]
      | b :: rest' =>
          have hrec : dropTrailWs (b :: rest') = b :: rest' := by
            apply ih
            intro x hx
            apply h
            rw [List.getLast?_cons_cons]
            exact hx
          rw [dropTrailWs, hrec]

theorem dropWhile_head_nonWs (l : List Char) :
    ∀ x, (l.dropWhile isPyWs).head? = some x → isPyWs x = false := by
  induction l with
  | nil => intro x h; simp at h
  | cons a rest ih =>
      intro x h
      by_cases hwa : isPyWs a
      · rw [List.dropWhile_cons_of_pos hwa] at h
        exact ih x h
      · rw [List.dropWhile_cons_of_neg (by simpa using hwa)] at h
        simp at h
        subst h
        simpa using hwa

theorem pyStrip_mem {l : List Char} {c : Char} (h : c ∈ pyStrip l) : c ∈ l := by
  rw [pyStrip] at h
  exact (List.dropWhile_suffix isPyWs).sublist.mem (dropTrailWs_mem h)

theorem pyStrip_head_nonWs (l : List Char) :
    ∀ x, (pyStrip l).head? = some x → isPyWs x = false := by
  intro x h
  rw [pyStrip] at h
  by_cases hne : dropTrailWs (l.dropWhile isPyWs) = []
  · rw [hne] at h; simp at h
  · rw [dropTrailWs_head? hne] at h
    exact dropWhile_head_nonWs l x h

theorem pyStrip_last_nonWs (l : List Char) :
    ∀ x, (pyStrip l).getLast? = some x → isPyWs x = false := by
  intro x h
  exact dropTrailWs_getLast h

theorem pyStrip_noAdj {l : List Char} (h : noAdjWs l = true) :
    noAdjWs (pyStrip l) = true :=
  dropTrailWs_noAdj (dropWhile_noAdj h)

theorem pyStrip_fix {l : List Char}
    (hhd : ∀ x, l.head? = some x → isPyWs x = false)
    (hlast : ∀ x, l.getLast? = some x → isPyWs x = false) : pyStrip l = l := by
  rw [pyStrip]
  have h1 : l.dropWhile isPyWs = l := by
    match l with
    | [] => rfl
    | a :: rest =>
        have := hhd a rfl
        rw [List.dropWhile_cons_of_neg (by simp [this])]
  rw [h1]
  exact dropTrailWs_fix hlast

/-! ## Idempotence on trigger-free input -/

theorem normalizePipeline_of_noTrig (l : List Char)
    (h : ∀ c ∈ l, isTrigChar c = false) :
    normalizePipeline l = pyStrip (collapseWs l) := by
  have hstar : '*' ∉ l := not_mem_of_noTrig h (by decide)
  have hbs : '\\' ∉ l := not_mem_of_noTrig h (by decide)
  have hhash : '#' ∉ l := not_mem_of_noTrig h (by decide)
  have hgt : '>' ∉ l := not_mem_of_noTrig h (by decide)
  have hamp : '&' ∉ l := not_mem_of_noTrig h (by decide)
  have hbtk : btk ∉ l := not_mem_of_noTrig h (by decide)
  have hdig : ∀ c ∈ l, isPyDigit c = false := by
    intro c hc
    by_cases hd : isPyDigit c = true
    · have : isTrigChar c = true := by simp [isTrigChar, hd]
      rw [h c hc] at this
      simp at this
    · simpa using hd
  rw [normalizePipeline, subBold, subBoldGo_id _ _ hstar, subItalic,
    subItalicGo_id _ _ hstar, subEscNewline, subEscNewlineGo_id _ _ hbs,
    subEscHyphen, subEscHyphenGo_id _ _ hbs, subHeaders, subHeadersGo_id _ _ _ hhash,
    subLinks, subBlockquote, subBlockquoteGo_id _ _ _ hgt, subCode,
    subCodeGo_id _ _ hbtk, subOrdered, subOrderedGo_id _ _ _ hdig, subBullet,
    subBulletGo_id _ _ _ hstar, replaceEscTab, replaceEscTabGo_id _ _ hbs,
    unescapeUnicode, unescapeUnicodeGo_id _ _ hbs, htmlUnescape,
    htmlUnescapeGo_id _ _ hamp]

theorem normalizePipeline_mem {l : List Char} {c : Char}
    (hc : c ∈ pyStrip (collapseWs l)) : c ∈ l ∨ c = ' ' :=
  collapseGo_mem false l c (pyStrip_mem hc)

theorem stripCollapse_fix (l : List Char) :
    pyStrip (collapseWs (pyStrip (collapseWs l))) = pyStrip (collapseWs l) := by
  set y := pyStrip (collapseWs l) with hy
  have hws : ∀ c ∈ y, isPyWs c = true → c = ' ' := by
    intro c hc hwc
    exact collapseGo_wsOnly false l c (pyStrip_mem hc) hwc
  have hadj : noAdjWs y = true := pyStrip_noAdj (collapseGo_noAdj false l)
  have hcy : collapseWs y = y := (collapseGo_fix y hws hadj).1
  rw [collapseWs] at hcy
  rw [collapseWs, hcy]
  exact pyStrip_fix (pyStrip_head_nonWs (collapseWs l)) (pyStrip_last_nonWs (collapseWs l))

theorem escape_text_data (s : String) : (escape_text s).data =
    (if s = "" then "" else String.mk (normalizePipeline s.data)).data := by
  rw [escape_text]

/-- Idempotence of `escape_text` on trigger-free input. -/
theorem escape_text_idem_of_noTrig (s : String)
    (h : ∀ c ∈ s.data, isTrigChar c = false) :
    escape_text (escape_text s) = escape_text s := by
  by_cases hs : s = ""
  · subst hs
    rfl
  · have h1 : escape_text s = String.mk (pyStrip (collapseWs s.data)) := by
      rw [escape_text, if_neg hs, normalizePipeline_of_noTrig s.data h]
    rw [h1]
    by_cases h2 : String.mk (pyStrip (collapseWs s.data)) = ""
    · rw [h2]
      rfl
    · have hdata : (String.mk (pyStrip (collapseWs s.data))).data = pyStrip (collapseWs s.data) := rfl
      have hnt : ∀ c ∈ pyStrip (collapseWs s.data), isTrigChar c = false := by
        intro c hc
        rcases normalizePipeline_mem hc with h3 | h3
        · exact h c h3
        · subst h3; decide
      rw [escape_text, if_neg h2, hdata, normalizePipeline_of_noTrig _ hnt,
        stripCollapse_fix]

/-! ## Claim theorems -/

/-- Claim C1, counterexample: a ragged table (`[["a"],["b","c"]]`) raises
`IndexError` while populating, and — contrary to the claim that a table
insertion failure never aborts the render — the whole request aborts with a
server error instead of producing a document. -/
theorem claim_C1_counterexample :
    (generate_pptx fetchAlwaysOk ⟨some (.dict ⟨some [raggedSlide], none⟩)⟩).isOk = false ∧
    (generate_pptx fetchAlwaysOk ⟨some (.dict ⟨some [raggedSlide], none⟩)⟩).isServerError = true := by
  constructor
  · decide
  · decide

/-- Claim C1, amended: image-insertion failures (for any fetch collaborator)
and chart-insertion failures are caught per shape and never abort the
render — a request whose tables all populate cleanly always yields a
document; table-insertion failures, however, are NOT caught per shape: any
slide whose table population raises aborts the whole render, which surfaces
as a server error with no document. -/
theorem claim_C1_amended :
    (∀ (f : Fetcher) (d : SlidesDict) (cs : List SlideData),
      d.content_slides = some cs → (∀ sd ∈ cs, slideTableOk sd = true) →
      (generate_pptx f ⟨some (.dict d)⟩).isOk = true) ∧
    (∀ (f : Fetcher) (d : SlidesDict) (cs : List SlideData),
      d.content_slides = some cs → (∃ sd ∈ cs, slideTableOk sd = false) →
      (generate_pptx f ⟨some (.dict d)⟩).isServerError = true) := by
  constructor
  · intro f d cs hcs hok
    obtain ⟨out, hout, _, _⟩ := buildSlides_ok_spec f cs hok
    simp [generate_pptx, hasContentSlidesKey, hcs, hout, RenderResult.isOk]
  · intro f d cs hcs hbad
    obtain ⟨e, he⟩ := buildSlides_err_spec f cs hbad
    simp [generate_pptx, hasContentSlidesKey, hcs, he, RenderResult.isServerError]

/-- Claim C1, witness: a document with a failing image fetch and an
unknown chart kind still renders, while the ragged-table document aborts. -/
theorem claim_C1_witness :
    ((⟨some [imgChartSlide], none⟩ : SlidesDict).content_slides = some [imgChartSlide] ∧
      (∀ sd ∈ [imgChartSlide], slideTableOk sd = true) ∧
      (generate_pptx fetchAlwaysFail ⟨some (.dict ⟨some [imgChartSlide], none⟩)⟩).isOk = true) ∧
    ((⟨some [sampleSlide, raggedSlide], none⟩ : SlidesDict).content_slides =
        some [sampleSlide, raggedSlide] ∧
      (∃ sd ∈ [sampleSlide, raggedSlide], slideTableOk sd = false) ∧
      (generate_pptx fetchAlwaysOk
        ⟨some (.dict ⟨some [sampleSlide, raggedSlide], none⟩)⟩).isServerError = true) := by
  refine ⟨⟨rfl, by decide, claim_C1_amended.1 fetchAlwaysFail _ _ rfl (by decide)⟩,
    ⟨rfl, ⟨raggedSlide, by decide, by decide⟩,
      claim_C1_amended.2 fetchAlwaysOk _ _ rfl ⟨raggedSlide, by decide, by decide⟩⟩⟩

/-- Claim C2, counterexample: a bare list of slide objects and a bare
single slide object (a dictionary without the `content_slides` key) are
both rejected with a client error, while the equivalent
`content_slides`-object form succeeds — the legacy shapes are not
accepted, let alone rendered identically. -/
theorem claim_C2_counterexample :
    (generate_pptx fetchAlwaysOk ⟨some (.arr [sampleSlide])⟩).isClientError = true ∧
    (generate_pptx fetchAlwaysOk ⟨some (.dict ⟨none, none⟩)⟩).isClientError = true ∧
    (generate_pptx fetchAlwaysOk ⟨some (.dict ⟨some [sampleSlide], none⟩)⟩).isOk = true := by
  refine ⟨by decide, by decide, by decide⟩

/-- Claim C2, amended: only the object form carrying a `content_slides` key
is accepted; a `slides` value that is a bare list, or an object without the
`content_slides` key (in particular a bare single slide object), fails the
`'content_slides' in slides_data` membership test and is rejected with a
client error before any document is built. -/
theorem claim_C2_amended :
    (∀ (f : Fetcher) (xs : List SlideData),
      (generate_pptx f ⟨some (.arr xs)⟩).isClientError = true) ∧
    (∀ (f : Fetcher) (d : SlidesDict), d.content_slides = none →
      (generate_pptx f ⟨some (.dict d)⟩).isClientError = true) := by
  constructor
  · intro f xs
    simp [generate_pptx, hasContentSlidesKey, RenderResult.isClientError]
  · intro f d hcs
    simp [generate_pptx, hasContentSlidesKey, hcs, RenderResult.isClientError]

/-- Claim C2, witness. -/
theorem claim_C2_witness :
    (generate_pptx fetchAlwaysOk ⟨some (.arr [sampleSlide])⟩).isClientError = true ∧
    ((⟨none, none⟩ : SlidesDict).content_slides = none ∧
      (generate_pptx fetchAlwaysOk ⟨some (.dict ⟨none, none⟩)⟩).isClientError = true) :=
  ⟨claim_C2_amended.1 fetchAlwaysOk [sampleSlide],
    rfl, claim_C2_amended.2 fetchAlwaysOk ⟨none, none⟩ rfl⟩

/-- Claim C3, counterexample: `normalize` is not idempotent.  HTML-entity
decoding is a single pass, so `"&amp;lt;"` normalizes to `"&lt;"`, which a
second application decodes further to `"<"`. -/
theorem claim_C3_counterexample :
    escape_text (escape_text "&amp;lt;") ≠ escape_text "&amp;lt;" := by decide

/-- Claim C3, amended: `normalize` is idempotent on inputs containing no
occurrence of the characters that can trigger a substitution (`*`, `\`,
`#`, `>`, `&`, backtick, and decimal digits); on general input a second
application can strip further, because entity decoding and code-block
removal may expose new markup. -/
theorem claim_C3_amended (s : String) (h : ∀ c ∈ s.data, isTrigChar c = false) :
    escape_text (escape_text s) = escape_text s :=
  escape_text_idem_of_noTrig s h

/-- Claim C3, witness: idempotence at a concrete trigger-free input. -/
theorem claim_C3_witness :
    (∀ c ∈ ("hello  world, ok." : String).data, isTrigChar c = false) ∧
    escape_text (escape_text "hello  world, ok.") = escape_text "hello  world, ok." :=
  ⟨by decide, claim_C3_amended "hello  world, ok." (by decide)⟩

/-- Claim C4: the whitespace-collapse step was written with a lookbehind
(`(?<!\n)\s+`) whose comment says newlines are preserved, but the
lookbehind never rejects a match (a whitespace run is always matched from
its first character, which never follows a newline), so newlines are
collapsed to spaces as well: the two examples documented by the
specification evaluate to single-line strings. -/
theorem claim_C4_eval :
    escape_text "# Title\n- item" = "Title - item" ∧
    escape_text "1. first\n2. second" = "- first - second" ∧
    escape_text "# Title\n- item" ≠ "Title\n- item" ∧
    escape_text "1. first\n2. second" ≠ "- first\n- second" := by
  refine ⟨by decide, by decide, by decide, by decide⟩

/-- Claim C5: the link-stripping step was written as
`re.sub(r'$$(.*?)$$$$(.*?)$$', r'\1', text)` (a corrupted form of the
intended bracket/parenthesis pattern); it only matches the empty string at
the end of the input and substitutes nothing, so a markdown link passes
through unchanged, markers and URL included. -/
theorem claim_C5_eval :
    escape_text "[text](url)" = "[text](url)" := by decide

theorem imageShapes_pic {f : Fetcher} {imgs : List ImageData} {sh : Shape}
    (h : sh ∈ imageShapes f imgs) : ∃ p, sh = Shape.pic p := by
  rw [imageShapes] at h
  obtain ⟨im, _, him⟩ := List.mem_filterMap.mp h
  rcases hf : f im.url with e | u
  · rw [hf] at him; simp at him
  · rw [hf] at him
    simp at him
    exact ⟨_, him.symm⟩

theorem imagePart_pic (f : Fetcher) (sd : SlideData) :
    ∀ sh ∈ (match sd.images with
            | some imgs => imageShapes f imgs
            | none => ([] : List Shape)), ∃ p, sh = Shape.pic p := by
  intro sh hsh
  rcases hI : sd.images with _ | imgs
  · rw [hI] at hsh; simp at hsh
  · rw [hI] at hsh
    exact imageShapes_pic hsh

theorem hasChartShape_mk_false (lay : Nat) (phs : List Placeholder)
    (imgsPart tPart : List Shape)
    (himg : ∀ sh ∈ imgsPart, ∃ p, sh = Shape.pic p)
    (htp : ∀ sh ∈ tPart, ∃ t, sh = Shape.table t) :
    hasChartShape ⟨lay, phs, imgsPart ++ tPart ++ []⟩ = false := by
  rw [hasChartShape, List.any_eq_false]
  intro sh hsh
  simp only [] at hsh
  rcases List.mem_append.mp hsh with h1 | h1
  · rcases List.mem_append.mp h1 with h2 | h2
    · obtain ⟨p, hp⟩ := himg sh h2
      rw [hp]
      simp
    · obtain ⟨t, htq⟩ := htp sh h2
      rw [htq]
      simp
  · simp at h1

/-- Claim C6: a slide whose `chartData.type` names no `XL_CHART_TYPE`
member does not abort the render: the whole document is still produced
(provided only that every slide's table populates, the one failure mode
that does escape), every content slide is built normally in order, and the
offending slide simply carries no chart shape.  (The diagnostic is a
`print`, outside the document model.) -/
theorem claim_C6_unknown_chart (f : Fetcher) (d : SlidesDict) (cs : List SlideData)
    (i : Nat) (sd : SlideData) (cd : ChartData)
    (hcs : d.content_slides = some cs) (hi : cs.get? i = some sd)
    (hcd : sd.chart_data = some cd)
    (hty : (cd.type.getD "COLUMN_CLUSTERED") ∉ xlChartTypeNames)
    (htab : ∀ x ∈ cs, slideTableOk x = true) :
    ∃ slides, generate_pptx f ⟨some (.dict d)⟩ = .ok (titleSlidePart d ++ slides) ∧
      slides.length = cs.length ∧
      (∀ j x, cs.get? j = some x → ∃ s, buildContentSlide f x = .ok s ∧
        slides.get? j = some s) ∧
      (∃ si, slides.get? i = some si ∧ hasChartShape si = false) := by
  obtain ⟨out, hout, hlen, hmain⟩ := buildSlides_ok_spec f cs htab
  refine ⟨out, ?_, hlen, hmain, ?_⟩
  · simp [generate_pptx, hasContentSlidesKey, hcs, hout]
  · obtain ⟨si, hsi, hoi⟩ := hmain i sd hi
    have hmem : sd ∈ cs := List.get?_mem hi
    obtain ⟨t?, ht⟩ := tablePart_ok_of sd (htab sd hmem)
    have hchartE : chartShapes sd = [] := by
      simp [chartShapes, hcd, buildChart, hty]
    refine ⟨si, hoi, ?_⟩
    rcases t? with _ | t
    · rw [buildContentSlide_of_tablePart_none f sd ht] at hsi
      rw [(Except.ok.inj hsi).symm, hchartE]
      exact hasChartShape_mk_false _ _ _ _ (imagePart_pic f sd) (by intro sh hsh; simp at hsh)
    · rw [buildContentSlide_of_tablePart_some f sd t ht] at hsi
      rw [(Except.ok.inj hsi).symm, hchartE]
      refine hasChartShape_mk_false _ _ _ _ (imagePart_pic f sd) ?_
      intro sh hsh
      simp at hsh
      exact ⟨t, hsh⟩

/-- Claim C6, witness: the unknown-chart request of `imgChartSlide`. -/
theorem claim_C6_witness :
    (⟨some [imgChartSlide], none⟩ : SlidesDict).content_slides = some [imgChartSlide] ∧
    [imgChartSlide].get? 0 = some imgChartSlide ∧
    imgChartSlide.chart_data =
      some ⟨some "NOT_A_REAL_TYPE", ["a", "b"], [⟨some "s1", [1, 2]⟩],
        some "Chart", none, none, none⟩ ∧
    (∃ slides,
      generate_pptx fetchAlwaysOk ⟨some (.dict ⟨some [imgChartSlide], none⟩)⟩ =
        .ok (titleSlidePart ⟨some [imgChartSlide], none⟩ ++ slides) ∧
      slides.length = [imgChartSlide].length ∧
      (∀ j x, [imgChartSlide].get? j = some x →
        ∃ s, buildContentSlide fetchAlwaysOk x = .ok s ∧ slides.get? j = some s) ∧
      (∃ si, slides.get? 0 = some si ∧ hasChartShape si = false)) :=
  ⟨rfl, rfl, rfl,
    claim_C6_unknown_chart fetchAlwaysOk _ _ 0 imgChartSlide _ rfl rfl rfl
      (by decide) (by decide)⟩

/-- Claim C7: the render returns a client error exactly when the request
lacks the `slides`-dictionary-with-`content_slides` shape, and an empty
`content_slides` list with no title slide is valid: it renders a document
with zero slides rather than an error. -/
theorem claim_C7_contentSlides_required :
    (∀ (f : Fetcher) (r : RequestData),
      (generate_pptx f r).isClientError = true ↔ contentSlidesPresent r = false) ∧
    (∀ f : Fetcher, generate_pptx f ⟨some (.dict ⟨some [], none⟩)⟩ = .ok []) := by
  constructor
  · intro f r
    rcases r with ⟨_ | sv⟩
    · simp [generate_pptx, contentSlidesPresent, RenderResult.isClientError]
    · rcases sv with d | xs
      · rcases hcs : d.content_slides with _ | cs
        · simp [generate_pptx, contentSlidesPresent, hasContentSlidesKey, hcs,
            RenderResult.isClientError]
        · rcases hbs : buildSlides f cs with e | slides
          · simp [generate_pptx, contentSlidesPresent, hasContentSlidesKey, hcs, hbs,
              RenderResult.isClientError]
          · simp [generate_pptx, contentSlidesPresent, hasContentSlidesKey, hcs, hbs,
              RenderResult.isClientError]
      · simp [generate_pptx, contentSlidesPresent, hasContentSlidesKey,
          RenderResult.isClientError]
  · intro f
    rfl

/-- Claim C8: a slide with well-formed `tableData` and no `tablePosition`
produces a table shape with `rows = len(tableData)`,
`cols = len(tableData[0])` (0 for empty data, in which case the empty
0-column table is still created), the default box
`{left:1, top:3, width:8, height:2}` inches, and every provided cell set to
the Python string form of its input value.  (The well-formedness hypothesis
`rowsFitB` — no row longer than row 0 — is the success condition of the
population loop; without it no table is inserted at all, see C1.) -/
theorem claim_C8_table_spec (f : Fetcher) (sd : SlideData) (td : List (List JVal))
    (htd : sd.table_data = some td) (hfit : rowsFitB td = true)
    (hpos : sd.table_position = none) :
    ∃ s t, buildContentSlide f sd = .ok s ∧ Shape.table t ∈ s.shapes ∧
      t.rows = td.length ∧ t.cols = headCols td ∧
      t.left = 1 ∧ t.top = 3 ∧ t.width = 8 ∧ t.height = 2 ∧
      (∀ r row c v, td.get? r = some row → row.get? c = some v →
        cellText t r c = some (pyStr v)) := by
  obtain ⟨t, hbt, hrows, hcols, hleft, htop, hw, hh, hcells⟩ :=
    buildTable_ok sd.table_position td hfit
  have ht : tablePart sd = .ok (some t) := by
    simp [tablePart, htd, hbt]
  refine ⟨_, t, buildContentSlide_of_tablePart_some f sd t ht, ?_,
    hrows, hcols, ?_, ?_, ?_, ?_, hcells⟩
  · simp
  · rw [hleft, hpos]; rfl
  · rw [htop, hpos]; rfl
  · rw [hw, hpos]; rfl
  · rw [hh, hpos]; rfl

/-- Claim C8, witness: the specification example
`tableData: [["a","b"],["c","d"]]`. -/
theorem claim_C8_witness :
    specTableSlide.table_data = some [[.str "a", .str "b"], [.str "c", .str "d"]] ∧
    rowsFitB [[.str "a", .str "b"], [.str "c", .str "d"]] = true ∧
    specTableSlide.table_position = none ∧
    (∃ s t, buildContentSlide fetchAlwaysOk specTableSlide = .ok s ∧
      Shape.table t ∈ s.shapes ∧
      t.rows = ([[JVal.str "a", JVal.str "b"], [JVal.str "c", JVal.str "d"]]).length ∧
      t.cols = headCols [[JVal.str "a", JVal.str "b"], [JVal.str "c", JVal.str "d"]] ∧
      t.left = 1 ∧ t.top = 3 ∧ t.width = 8 ∧ t.height = 2 ∧
      (∀ r row c v,
        ([[JVal.str "a", JVal.str "b"], [JVal.str "c", JVal.str "d"]]).get? r = some row →
        row.get? c = some v → cellText t r c = some (pyStr v))) :=
  ⟨rfl, by decide, rfl,
    claim_C8_table_spec fetchAlwaysOk specTableSlide _ rfl (by decide) rfl⟩

/-- Claim C9: when a content slide has a `body`, the body text is bound to
the first placeholder (in layout order, after the title assignment) that
supports text and holds no text — first match, with no regard to the
region's role; when no such placeholder exists the body text is silently
dropped and the slide is still built without error. -/
theorem claim_C9_body_binding (f : Fetcher) (sd : SlideData) (b : String)
    (hb : sd.body = some b) (ht : slideTableOk sd = true) :
    ∃ s, buildContentSlide f sd = .ok s ∧
      ((∃ i ph, findEmptyIdx (titledPlaceholders sd) = some i ∧
          (titledPlaceholders sd).get? i = some ph ∧ isEmptyTextPh ph = true ∧
          (∀ j ph', j < i → (titledPlaceholders sd).get? j = some ph' →
            isEmptyTextPh ph' = false) ∧
          s.placeholders = setPh (titledPlaceholders sd) i (escape_text b)
            (sd.body_font_size.getD 24)) ∨
        ((∀ ph ∈ titledPlaceholders sd, isEmptyTextPh ph = false) ∧
          s.placeholders = titledPlaceholders sd)) := by
  obtain ⟨s, hs, _, hphs⟩ := buildContentSlide_ok_of f sd ht
  refine ⟨s, hs, ?_⟩
  rw [hphs, boundPlaceholders]
  rcases hfind : findEmptyIdx (titledPlaceholders sd) with _ | i
  · right
    refine ⟨findEmptyIdx_none_spec _ hfind, ?_⟩
    simp [hb]
  · left
    obtain ⟨ph, hph, hempty, hfirst⟩ := findEmptyIdx_some_spec _ i hfind
    refine ⟨i, ph, rfl, hph, hempty, hfirst, ?_⟩
    simp [hb]

/-- Claim C9, witness: the body of `bodySlide` lands in the second
placeholder of the Title-and-Content layout (the title placeholder is
occupied). -/
theorem claim_C9_witness :
    bodySlide.body = some "hello body" ∧ slideTableOk bodySlide = true ∧
    (∃ s, buildContentSlide fetchAlwaysOk bodySlide = .ok s ∧
      ((∃ i ph, findEmptyIdx (titledPlaceholders bodySlide) = some i ∧
          (titledPlaceholders bodySlide).get? i = some ph ∧ isEmptyTextPh ph = true ∧
          (∀ j ph', j < i → (titledPlaceholders bodySlide).get? j = some ph' →
            isEmptyTextPh ph' = false) ∧
          s.placeholders = setPh (titledPlaceholders bodySlide) i
            (escape_text "hello body") (bodySlide.body_font_size.getD 24)) ∨
        ((∀ ph ∈ titledPlaceholders bodySlide, isEmptyTextPh ph = false) ∧
          s.placeholders = titledPlaceholders bodySlide))) :=
  ⟨rfl, by decide, claim_C9_body_binding fetchAlwaysOk bodySlide "hello body" rfl (by decide)⟩

/-- Claim C10: normalization is applied to the slide title (the title
placeholder text is the normalized input), while a non-empty chart title is
set verbatim from the input string and every table cell is the raw Python
stringification of its input value — no normalization step touches chart
titles or table cells. -/
theorem claim_C10_raw_vs_normalized (f : Fetcher) (sd : SlideData) (cd : ChartData)
    (t : String) (hcd : sd.chart_data = some cd) (hti : cd.title = some t)
    (hne : t ≠ "") (hknown : (cd.type.getD "COLUMN_CLUSTERED") ∈ xlChartTypeNames)
    (htab : slideTableOk sd = true) :
    ∃ s, buildContentSlide f sd = .ok s ∧
      (∃ cc, Shape.chart cc ∈ s.shapes ∧ cc.title = some t ∧
        cc.chart_type = cd.type.getD "COLUMN_CLUSTERED") ∧
      (∃ ph, (titledPlaceholders sd).get? 0 = some ph ∧
        ph.text = escape_text (sd.title.getD "Untitled Slide")) ∧
      (∀ td tb r row c v, sd.table_data = some td → Shape.table tb ∈ s.shapes →
        td.get? r = some row → row.get? c = some v →
        cellText tb r c = some (pyStr v)) := by
  have hbc : buildChart cd = .ok
      { chart_type := cd.type.getD "COLUMN_CLUSTERED",
        categories := cd.categories,
        series := cd.series.map (fun s => (s.name.getD "", s.values)),
        has_legend := cd.has_legend.getD true,
        title := some t,
        title_font_size := some (cd.title_font_size.getD 18),
        left := (cd.chart_position.getD ⟨none, none, none, none⟩).left.getD 1,
        top := (cd.chart_position.getD ⟨none, none, none, none⟩).top.getD 3,
        width := (cd.chart_position.getD ⟨none, none, none, none⟩).width.getD 6,
        height := (cd.chart_position.getD ⟨none, none, none, none⟩).height.getD 4 } := by
    unfold buildChart
    rw [if_pos hknown]
    simp [hti, hne]
  obtain ⟨cc, hbcc, hcct, hccty⟩ :
      ∃ cc, buildChart cd = .ok cc ∧ cc.title = some t ∧
        cc.chart_type = cd.type.getD "COLUMN_CLUSTERED" := ⟨_, hbc, rfl, rfl⟩
  have hcsh : chartShapes sd = [Shape.chart cc] := by
    simp [chartShapes, hcd, hbcc]
  have hph : ∃ ph, (titledPlaceholders sd).get? 0 = some ph ∧
      ph.text = escape_text (sd.title.getD "Untitled Slide") := by
    refine ⟨⟨true, escape_text (sd.title.getD "Untitled Slide"),
      some (sd.title_font_size.getD 36)⟩, ?_, rfl⟩
    simp [titledPlaceholders, selectLayout, hcd, layoutPlaceholders, setPh]
  rcases htd : sd.table_data with _ | td
  · have ht : tablePart sd = .ok none := by simp [tablePart, htd]
    refine ⟨_, buildContentSlide_of_tablePart_none f sd ht, ?_, hph, ?_⟩
    · exact ⟨cc, by simp [hcsh], hcct, hccty⟩
    · intro td0 tb r row c v htd0 _ _ _
      simp at htd0
  · have hfit : rowsFitB td = true := by
      rw [slideTableOk, htd] at htab
      exact htab
    obtain ⟨tt, hbt, _, _, _, _, _, _, hcells⟩ := buildTable_ok sd.table_position td hfit
    have ht : tablePart sd = .ok (some tt) := by simp [tablePart, htd, hbt]
    refine ⟨_, buildContentSlide_of_tablePart_some f sd tt ht, ?_, hph, ?_⟩
    · exact ⟨cc, by simp [hcsh], hcct, hccty⟩
    · intro td0 tb r row c v htd0 hmem hr hv
      have htd0' : td0 = td := by simpa using htd0.symm
      subst htd0'
      simp only [] at hmem
      rcases List.mem_append.mp hmem with h1 | h1
      · rcases List.mem_append.mp h1 with h2 | h2
        · obtain ⟨p, hp⟩ := imagePart_pic f sd _ h2
          exact absurd hp (by simp)
        · have htb : tb = tt := by simpa using h2
          subst htb
          exact hcells r row c v hr hv
      · rw [hcsh] at h1
        simp at h1

/-- Claim C10, witness: `rawTextSlide` — markdown heading in the slide
title (normalized away), raw markup in the chart title and table cells
(kept verbatim). -/
theorem claim_C10_witness :
    rawTextSlide.chart_data =
      some ⟨none, ["q1"], [⟨some "s", [3]⟩], some "Revenue *2024*", none, none, none⟩ ∧
    ("Revenue *2024*" : String) ≠ "" ∧
    ("COLUMN_CLUSTERED" : String) ∈ xlChartTypeNames ∧
    slideTableOk rawTextSlide = true ∧
    (∃ s, buildContentSlide fetchAlwaysOk rawTextSlide = .ok s ∧
      (∃ cc, Shape.chart cc ∈ s.shapes ∧ cc.title = some "Revenue *2024*" ∧
        cc.chart_type = (Option.none.getD "COLUMN_CLUSTERED" : String)) ∧
      (∃ ph, (titledPlaceholders rawTextSlide).get? 0 = some ph ∧
        ph.text = escape_text (rawTextSlide.title.getD "Untitled Slide")) ∧
      (∀ td tb r row c v, rawTextSlide.table_data = some td →
        Shape.table tb ∈ s.shapes → td.get? r = some row → row.get? c = some v →
        cellText tb r c = some (pyStr v))) :=
  ⟨rfl, by decide, by decide, by decide,
    claim_C10_raw_vs_normalized fetchAlwaysOk rawTextSlide _ "Revenue *2024*"
      rfl rfl (by decide) (by decide) (by decide)⟩
